import Mathlib

/-!
Shallow embedding of the reconciliation / deduplication core of the
mcp-xray-python repository (src/core/gherkin.py, adf.py, dedupe.py, llm.py,
jira.py) together with theorems settling the frozen claims C1-C10.

Machine integers are modelled as Nat with explicit reduction mod 2^32 where
the Python code relies on fixed-width hash arithmetic (hashlib).  Character
classes (\s, \w, \d) are modelled over their ASCII meaning, which covers
every string the code and its tests manipulate.
-/

set_option maxRecDepth 10000

/-! ### Python string primitives -/

/-- Python regex `\s` / `str.strip()` whitespace, ASCII fragment: the space
character and the code points 9-13 (tab, newline, vertical tab, form feed,
carriage return). -/
def pyIsSpace (c : Char) : Bool :=
  c.toNat = 32 || (9 ≤ c.toNat && c.toNat ≤ 13)

/-- Python regex `\w` word character, ASCII fragment. -/
def pyIsWord (c : Char) : Bool :=
  c.isAlpha || c.isDigit || c == '_'

/-- Python `str.strip()` - trim whitespace at both ends. -/
def pyStrip (s : String) : String :=
  String.mk (((s.data.dropWhile pyIsSpace).reverse.dropWhile pyIsSpace).reverse)

/-- Python `str.strip(chars)` - trim any of the given characters at both ends. -/
def pyStripChars (cs : List Char) (s : String) : String :=
  String.mk (((s.data.dropWhile (fun c => cs.contains c)).reverse.dropWhile
      (fun c => cs.contains c)).reverse)

/-- Core of `re.sub(r"\s+", " ", s)`: emit one space per maximal whitespace
run; the flag records whether we are inside a run already matched. -/
def collapseWsAux : Bool → List Char → List Char
  | _, [] => []
  | inRun, c :: rest =>
    if pyIsSpace c then
      if inRun then collapseWsAux true rest
      else ' ' :: collapseWsAux true rest
    else c :: collapseWsAux false rest

/-- Python `re.sub(r"\s+", " ", s)`. -/
def collapseWs (s : String) : String := String.mk (collapseWsAux false s.data)

/-- Python `str.lower()`, ASCII fragment. -/
def pyLower (s : String) : String := String.mk (s.data.map Char.toLower)

/-- Python truthiness-based `opt or dflt` for an optional string field:
`None` and the empty string are falsy. -/
def pyOrStr (o : Option String) (dflt : String) : String :=
  match o with
  | some s => if s = "" then dflt else s
  | none => dflt

/-- Python `str.replace(old, new, 1)` in list-of-characters form: replace the
first (leftmost) occurrence of `old`, wherever it occurs. -/
def replaceOnceAux (old new : List Char) : List Char → List Char
  | [] => []
  | c :: rest =>
    if old.isPrefixOf (c :: rest) then new ++ (c :: rest).drop old.length
    else c :: replaceOnceAux old new rest

/-- Python `str.replace(old, new, 1)`. -/
def pyReplaceOnce (s old new : String) : String :=
  if old = "" then new ++ s
  else String.mk (replaceOnceAux old.data new.data s.data)

/-- Line-boundary characters recognised by Python `str.splitlines()`: code
points 10-13 (newline, vertical tab, form feed, carriage return), 28-30 (the
separator controls), 133 (NEL), 8232 and 8233 (line/paragraph separator). -/
def pyIsLineBoundary (c : Char) : Bool :=
  (10 ≤ c.toNat && c.toNat ≤ 13) || (28 ≤ c.toNat && c.toNat ≤ 30) ||
  c.toNat = 133 || c.toNat = 8232 || c.toNat = 8233

/-- Worker for `str.splitlines()`; a `"\r\n"` pair counts as one boundary and
a trailing boundary produces no empty final line. -/
def pySplitlinesAux : List Char → List Char → List (List Char)
  | [], acc => [acc]
  | '\r' :: '\n' :: rest2, acc =>
    acc :: (if rest2.isEmpty then [] else pySplitlinesAux rest2 [])
  | c :: rest, acc =>
    if pyIsLineBoundary c then
      acc :: (if rest.isEmpty then [] else pySplitlinesAux rest [])
    else
      pySplitlinesAux rest (acc ++ [c])

/-- Python `str.splitlines()`. -/
def pySplitlines (s : String) : List String :=
  if s.data.isEmpty then []
  else (pySplitlinesAux s.data []).map String.mk

/-! ### Byte-level hashing (hashlib.sha1 / hashlib.md5), over Nat -/

/-- Reduce to a 32-bit word. -/
def u32 (n : Nat) : Nat := n % 4294967296

/-- Rotate a 32-bit word left by `b` bits. -/
def rotl (b n : Nat) : Nat := u32 ((n <<< b) ||| (n >>> (32 - b)))

/-- UTF-8 encoding of one code point (Python `str.encode("utf-8")`). -/
def utf8Char (c : Char) : List Nat :=
  let n := c.toNat
  if n < 128 then [n]
  else if n < 2048 then [192 ||| (n >>> 6), 128 ||| (n &&& 63)]
  else if n < 65536 then
    [224 ||| (n >>> 12), 128 ||| ((n >>> 6) &&& 63), 128 ||| (n &&& 63)]
  else
    [240 ||| (n >>> 18), 128 ||| ((n >>> 12) &&& 63),
     128 ||| ((n >>> 6) &&& 63), 128 ||| (n &&& 63)]

/-- UTF-8 bytes of a string. -/
def utf8Bytes (s : String) : List Nat :=
  s.data.foldr (fun c r => utf8Char c ++ r) []

/-- Big-endian 8-byte encoding of a length in bits (SHA-1 padding tail). -/
def be8 (n : Nat) : List Nat :=
  [(n >>> 56) &&& 255, (n >>> 48) &&& 255, (n >>> 40) &&& 255,
   (n >>> 32) &&& 255, (n >>> 24) &&& 255, (n >>> 16) &&& 255,
   (n >>> 8) &&& 255, n &&& 255]

/-- Little-endian 8-byte encoding of a length in bits (MD5 padding tail). -/
def le8 (n : Nat) : List Nat :=
  [n &&& 255, (n >>> 8) &&& 255, (n >>> 16) &&& 255, (n >>> 24) &&& 255,
   (n >>> 32) &&& 255, (n >>> 40) &&& 255, (n >>> 48) &&& 255,
   (n >>> 56) &&& 255]

/-- Split a byte list into 64-byte chunks; the fuel argument (instantiated
with the list length, an upper bound on the chunk count) keeps the recursion
structural so that the kernel can evaluate it. -/
def chunks64Go : Nat → List Nat → List (List Nat)
  | _, [] => []
  | 0, _ => []
  | fuel + 1, x :: xs => ((x :: xs).take 64) :: chunks64Go fuel ((x :: xs).drop 64)

/-- Split a byte list into 64-byte chunks. -/
def chunks64 (l : List Nat) : List (List Nat) := chunks64Go l.length l

/-- Bytes to big-endian 32-bit words (4 bytes each). -/
def beWords : List Nat → List Nat
  | a :: b :: c :: d :: rest => (((a * 256 + b) * 256 + c) * 256 + d) :: beWords rest
  | _ => []

/-- Bytes to little-endian 32-bit words (4 bytes each). -/
def leWords : List Nat → List Nat
  | a :: b :: c :: d :: rest => (a + 256 * (b + 256 * (c + 256 * d))) :: leWords rest
  | _ => []

/-- Iterate a function n times. -/
def iterN (f : α → α) : Nat → α → α
  | 0, x => x
  | n + 1, x => iterN f n (f x)

/-- One SHA-1 message-schedule extension step: append
`rotl 1 (w[i-3] xor w[i-8] xor w[i-14] xor w[i-16])`. -/
def sha1ExtendStep (w : List Nat) : List Nat :=
  w ++ [rotl 1 ((w.getD (w.length - 3) 0) ^^^ (w.getD (w.length - 8) 0) ^^^
                (w.getD (w.length - 14) 0) ^^^ (w.getD (w.length - 16) 0))]

/-- SHA-1 round function. -/
def sha1F (i b c d : Nat) : Nat :=
  if i < 20 then (b &&& c) ||| ((b ^^^ 4294967295) &&& d)
  else if i < 40 then b ^^^ c ^^^ d
  else if i < 60 then (b &&& c) ||| (b &&& d) ||| (c &&& d)
  else b ^^^ c ^^^ d

/-- SHA-1 round constant. -/
def sha1K (i : Nat) : Nat :=
  if i < 20 then 1518500249
  else if i < 40 then 1859775393
  else if i < 60 then 2400959708
  else 3395469782

/-- SHA-1 compression of one 64-byte block into the running state. -/
def sha1Compress (h : Nat × Nat × Nat × Nat × Nat) (block : List Nat) :
    Nat × Nat × Nat × Nat × Nat :=
  let w := iterN sha1ExtendStep 64 (beWords block)
  let (h0, h1, h2, h3, h4) := h
  let st := (List.range 80).foldl
    (fun st i =>
      let (a, b, c, d, e) := st
      let temp := u32 (rotl 5 a + sha1F i b c d + e + sha1K i + w.getD i 0)
      (temp, a, rotl 30 b, c, d))
    (h0, h1, h2, h3, h4)
  let (a, b, c, d, e) := st
  (u32 (h0 + a), u32 (h1 + b), u32 (h2 + c), u32 (h3 + d), u32 (h4 + e))

/-- SHA-1 padding: append 0x80, zeros to 56 mod 64, then the bit length as
8 big-endian bytes. -/
def sha1Pad (msg : List Nat) : List Nat :=
  let z := (119 - msg.length % 64) % 64
  msg ++ [128] ++ List.replicate z 0 ++ be8 (msg.length * 8)

/-- SHA-1 state words of a byte message. -/
def sha1Words (msg : List Nat) : List Nat :=
  let (h0, h1, h2, h3, h4) := (chunks64 (sha1Pad msg)).foldl sha1Compress
    (1732584193, 4023233417, 2562383102, 271733878, 3285377520)
  [h0, h1, h2, h3, h4]

/-- Lower-case hexadecimal digit: code point 48 + n for n below 10,
87 + n (so 97 = lower-case a for n = 10) otherwise. -/
def hexChar (n : Nat) : Char :=
  if n < 10 then Char.ofNat (48 + n) else Char.ofNat (87 + n)

/-- 8 hex characters of a 32-bit word, big-endian. -/
def hexWord (w : Nat) : List Char :=
  [hexChar ((w >>> 28) &&& 15), hexChar ((w >>> 24) &&& 15),
   hexChar ((w >>> 20) &&& 15), hexChar ((w >>> 16) &&& 15),
   hexChar ((w >>> 12) &&& 15), hexChar ((w >>> 8) &&& 15),
   hexChar ((w >>> 4) &&& 15), hexChar (w &&& 15)]

/-- Python `hashlib.sha1(msg).hexdigest()`. -/
def sha1Hex (msg : List Nat) : String :=
  String.mk ((sha1Words msg).foldr (fun w r => hexWord w ++ r) [])

/-- MD5 per-round left-rotation amounts. -/
def md5S (i : Nat) : Nat :=
  let r := i % 4
  if i < 16 then [7, 12, 17, 22].getD r 0
  else if i < 32 then [5, 9, 14, 20].getD r 0
  else if i < 48 then [4, 11, 16, 23].getD r 0
  else [6, 10, 15, 21].getD r 0

/-- MD5 round constants (floor(2^32 * abs(sin(i+1)))). -/
def md5K : List Nat :=
  [0xd76aa478, 0xe8c7b756, 0x242070db, 0xc1bdceee,
   0xf57c0faf, 0x4787c62a, 0xa8304613, 0xfd469501,
   0x698098d8, 0x8b44f7af, 0xffff5bb1, 0x895cd7be,
   0x6b901122, 0xfd987193, 0xa679438e, 0x49b40821,
   0xf61e2562, 0xc040b340, 0x265e5a51, 0xe9b6c7aa,
   0xd62f105d, 0x02441453, 0xd8a1e681, 0xe7d3fbc8,
   0x21e1cde6, 0xc33707d6, 0xf4d50d87, 0x455a14ed,
   0xa9e3e905, 0xfcefa3f8, 0x676f02d9, 0x8d2a4c8a,
   0xfffa3942, 0x8771f681, 0x6d9d6122, 0xfde5380c,
   0xa4beea44, 0x4bdecfa9, 0xf6bb4b60, 0xbebfbc70,
   0x289b7ec6, 0xeaa127fa, 0xd4ef3085, 0x04881d05,
   0xd9d4d039, 0xe6db99e5, 0x1fa27cf8, 0xc4ac5665,
   0xf4292244, 0x432aff97, 0xab9423a7, 0xfc93a039,
   0x655b59c3, 0x8f0ccc92, 0xffeff47d, 0x85845dd1,
   0x6fa87e4f, 0xfe2ce6e0, 0xa3014314, 0x4e0811a1,
   0xf7537e82, 0xbd3af235, 0x2ad7d2bb, 0xeb86d391]

/-- MD5 round function. -/
def md5F (i b c d : Nat) : Nat :=
  if i < 16 then (b &&& c) ||| ((b ^^^ 4294967295) &&& d)
  else if i < 32 then (d &&& b) ||| ((d ^^^ 4294967295) &&& c)
  else if i < 48 then b ^^^ c ^^^ d
  else c ^^^ (b ||| (d ^^^ 4294967295))

/-- MD5 message-word index per round. -/
def md5G (i : Nat) : Nat :=
  if i < 16 then i
  else if i < 32 then (5 * i + 1) % 16
  else if i < 48 then (3 * i + 5) % 16
  else (7 * i) % 16

/-- MD5 compression of one 64-byte block into the running state. -/
def md5Compress (h : Nat × Nat × Nat × Nat) (block : List Nat) :
    Nat × Nat × Nat × Nat :=
  let m := leWords block
  let (a0, b0, c0, d0) := h
  let st := (List.range 64).foldl
    (fun st i =>
      let (a, b, c, d) := st
      let f := u32 (md5F i b c d + a + md5K.getD i 0 + m.getD (md5G i) 0)
      (d, u32 (b + rotl (md5S i) f), b, c))
    (a0, b0, c0, d0)
  let (a, b, c, d) := st
  (u32 (a0 + a), u32 (b0 + b), u32 (c0 + c), u32 (d0 + d))

/-- MD5 padding: append 0x80, zeros to 56 mod 64, then the bit length as
8 little-endian bytes. -/
def md5Pad (msg : List Nat) : List Nat :=
  let z := (119 - msg.length % 64) % 64
  msg ++ [128] ++ List.replicate z 0 ++ le8 (msg.length * 8)

/-- Little-endian 4-byte encoding of a 32-bit word. -/
def le4 (w : Nat) : List Nat :=
  [w &&& 255, (w >>> 8) &&& 255, (w >>> 16) &&& 255, (w >>> 24) &&& 255]

/-- MD5 digest bytes of a byte message. -/
def md5Bytes (msg : List Nat) : List Nat :=
  let (a, b, c, d) := (chunks64 (md5Pad msg)).foldl md5Compress
    (0x67452301, 0xefcdab89, 0x98badcfe, 0x10325476)
  le4 a ++ le4 b ++ le4 c ++ le4 d

/-- Two hex characters of one byte. -/
def byteHex (b : Nat) : List Char := [hexChar ((b >>> 4) &&& 15), hexChar (b &&& 15)]

/-- Python `hashlib.md5(msg).hexdigest()`. -/
def md5Hex (msg : List Nat) : String :=
  String.mk ((md5Bytes msg).foldr (fun b r => byteHex b ++ r) [])

/-! ### src/core/gherkin.py -/

/-- Consume a literal pattern case-insensitively from the front of a list
(regex literal under `re.IGNORECASE`); returns the rest on success. -/
def ciDropLit : List Char → List Char → Option (List Char)
  | [], l => some l
  | _ :: _, [] => none
  | p :: ps, c :: cs => if c.toLower = p.toLower then ciDropLit ps cs else none

/-- The group `(?:{re.escape(issue_key)}\s*\|\s*)?` of `sanitize_title`'s
prefix pattern: consume the issue key, optional spaces, a `|`, optional
spaces; if the whole group does not match, consume nothing. -/
def dropKeyTag (key : List Char) (l : List Char) : List Char :=
  match ciDropLit key l with
  | some r1 =>
    match r1.dropWhile pyIsSpace with
    | '|' :: r2 => r2.dropWhile pyIsSpace
    | _ => l
  | none => l

/-- The group `(?:TC\d+\s*\|\s*)?` of `sanitize_title`'s prefix pattern. -/
def dropTcTag (l : List Char) : List Char :=
  match l with
  | t :: c :: rest =>
    if t.toLower = 't' && c.toLower = 'c' then
      if (rest.takeWhile Char.isDigit).isEmpty then l
      else
        match (rest.dropWhile Char.isDigit).dropWhile pyIsSpace with
        | '|' :: r2 => r2.dropWhile pyIsSpace
        | _ => l
    else l
  | _ => l

/-- `re.sub(prefix_pat, "", t, flags=re.IGNORECASE)` with
`prefix_pat = ^\s*(?:key\s*\|\s*)?(?:TC\d+\s*\|\s*)?`: the anchored pattern
always matches exactly once at the start, consuming leading whitespace and
then each optional group greedily. -/
def stripTrackerTags (key : String) (l : List Char) : List Char :=
  dropTcTag (dropKeyTag key.data (l.dropWhile pyIsSpace))

/-- The literal `Validate` as lower-case characters. -/
def validateChars : List Char := ['v', 'a', 'l', 'i', 'd', 'a', 't', 'e']

/-- Greedy repetition `(Validate\s*)+`: consume as many copies as possible;
the Bool records whether at least one copy matched.  The fuel argument
(instantiated with the list length, an upper bound on the repetition count)
keeps the recursion structural. -/
def stripValidatesGo : Nat → List Char → Bool × List Char
  | 0, l => (false, l)
  | fuel + 1, l =>
    match ciDropLit validateChars l with
    | some r =>
      let (_, out) := stripValidatesGo fuel (r.dropWhile pyIsSpace)
      (true, out)
    | none => (false, l)

/-- `re.sub(r"^\s*(Validate\s*)+", "", t, flags=re.IGNORECASE)`: the anchored
pattern matches only if at least one `Validate` follows the leading
whitespace; otherwise the string is unchanged. -/
def stripValidateMarkers (l : List Char) : List Char :=
  let lw := l.dropWhile pyIsSpace
  let (hit, rest) := stripValidatesGo lw.length lw
  if hit then rest else l

/-- gherkin.py `sanitize_title`; `raw` is `Option` because Python callers
pass `None` (handled by `raw or ""`). -/
def sanitize_title (issue_key : String) (raw : Option String) : String :=
  let t0 := pyStrip (pyOrStr raw "")
  let t1 := String.mk (stripValidateMarkers (stripTrackerTags issue_key t0.data))
  let t2 := pyStripChars [' ', '-', ':', '–', '—'] t1
  let t3 := pyStrip (collapseWs t2)
  let t4 := if t3 = "" then "Untitled Scenario" else t3
  "Validate " ++ t4

/-- A scenario dict as consumed by `build_feature_single`; `Option` fields
model `dict.get` with its defaults. -/
structure PyScenario where
  title : Option String
  steps : Option String
deriving Repr, DecidableEq

/-- The `body` list built by gherkin.py `build_feature_single` before the
final newline join. -/
def build_feature_body (summary issue_key : String) (sc : PyScenario) : List String :=
  let title := sc.title.getD "Untitled Scenario"
  let scenario_title := pyReplaceOnce title "Validate " ""
  let steps := sc.steps.getD "# No steps defined"
  ["@" ++ issue_key, "Feature: " ++ summary, "  # Source: " ++ issue_key, "",
   "  Scenario: " ++ scenario_title]
  ++ (pySplitlines steps).map (fun line => "    " ++ pyStrip line)
  ++ [""]

/-- gherkin.py `build_feature_single`. -/
def build_feature_single (summary issue_key : String) (sc : PyScenario) : String :=
  String.intercalate "\n" (build_feature_body summary issue_key sc)

/-- gherkin.py `_norm_gherkin`: lower-case, collapse whitespace runs, trim. -/
def norm_gherkin (s : String) : String := pyStrip (collapseWs (pyLower s))

/-- The pre-hash payload of gherkin.py `make_signature`:
normalized title, `"|"`, normalized feature text. -/
def sig_payload (title feature_text : String) : String :=
  norm_gherkin title ++ "|" ++ norm_gherkin feature_text

/-- gherkin.py `make_signature`: sha1 hexdigest of the payload. -/
def make_signature (title feature_text : String) : String :=
  sha1Hex (utf8Bytes (sig_payload title feature_text))

/-- The five step keywords of `STEP_RX`, lower-case. -/
def stepKeywords : List (List Char) :=
  [['g', 'i', 'v', 'e', 'n'], ['w', 'h', 'e', 'n'], ['t', 'h', 'e', 'n'],
   ['a', 'n', 'd'], ['b', 'u', 't']]

/-- `STEP_RX.match(line)`: `^\s*(Given|When|Then|And|But)\b`, case-insensitive;
the word boundary requires the next character (if any) to be a non-word
character. -/
def stepRxMatch (line : String) : Bool :=
  let l := line.data.dropWhile pyIsSpace
  stepKeywords.any (fun kw =>
    match ciDropLit kw l with
    | some r =>
      match r with
      | [] => true
      | c :: _ => !pyIsWord c
    | none => false)

/-- `re.sub(r"\d+", "#", t)`: each maximal digit run becomes one `#`. -/
def collapseDigitsAux : Bool → List Char → List Char
  | _, [] => []
  | inRun, c :: rest =>
    if c.isDigit then
      if inRun then collapseDigitsAux true rest
      else '#' :: collapseDigitsAux true rest
    else c :: collapseDigitsAux false rest

/-- `re.sub(r"[^a-z#\s|]+", "", t)`: keep only these characters. -/
def keepStepsChar (c : Char) : Bool :=
  ('a' ≤ c && c ≤ 'z') || c == '#' || pyIsSpace c || c == '|'

/-- gherkin.py `steps_signature`: keyword-matching lines only, stripped and
lower-cased, joined with `" | "`, digit runs collapsed, filtered, whitespace
collapsed, then md5 hexdigest; empty string when no line matches. -/
def steps_signature (steps : String) : String :=
  let lines := ((pySplitlines steps).filter stepRxMatch).map
    (fun raw => pyLower (pyStrip raw))
  if lines.isEmpty then ""
  else
    let t1 := String.intercalate " | " lines
    let t2 := String.mk (collapseDigitsAux false t1.data)
    let t3 := String.mk (t2.data.filter keepStepsChar)
    let t4 := pyStrip (collapseWs t3)
    md5Hex (utf8Bytes t4)

/-! ### src/core/adf.py -/

/-- An attribute value of an ADF node (`attrs` dict values are strings or
numbers in this codebase). -/
inductive AttrV where
  | str (s : String)
  | num (n : Nat)
deriving Repr, DecidableEq

/-- A node of the Atlassian Document Format tree: a `type` tag, an optional
`attrs` dict, an optional `text` field and a `content` child list. -/
inductive Adf where
  | node (ty : String) (attrs : List (String × AttrV)) (text : Option String)
      (content : List Adf)

/-- Dict lookup in an `attrs` list (`attrs.get(k)`). -/
def attrGet (attrs : List (String × AttrV)) (k : String) : Option AttrV :=
  (attrs.find? (fun p => p.1 == k)).map (fun p => p.2)

/-- Python `(n.get("attrs") or {}).get("language") == lang`: a missing or
non-string attribute never equals a string. -/
def langMatches (attrs : List (String × AttrV)) (lang : String) : Bool :=
  match attrGet attrs "language" with
  | some (.str s) => s == lang
  | _ => false

/-- A text node (`type "text"` carrying a `text` string). -/
def adfTextNode (s : String) : Adf := .node "text" [] (some s) []

/-- adf.py `adf_with_code_block`: optional heading (only for truthy title),
then one `codeBlock` tagged `language: gherkin` holding one text node. -/
def adf_with_code_block (title code_text : String) : Adf :=
  .node "doc" [("version", .num 1)] none
    ((if title = "" then []
      else [Adf.node "heading" [("level", .num 3)] none [adfTextNode title]])
     ++ [Adf.node "codeBlock" [("language", .str "gherkin")] none
          [adfTextNode code_text]])

/-- The `"".join(text)` of the text children of a `codeBlock` node. -/
def codeblockText (content : List Adf) : String :=
  String.join (content.map (fun c =>
    match c with
    | .node ty _ txt _ => if ty = "text" then txt.getD "" else ""))

mutual

/-- The recursive `walk` of adf.py `adf_extract_codeblocks`: collect the
joined text of every `codeBlock` whose language matches (every code block
when `lang` is falsy), in depth-first pre-order. -/
def adfWalkCode (lang : String) : Adf → List String
  | .node ty attrs _ content =>
    (if ty == "codeBlock" && (lang == "" || langMatches attrs lang)
     then [codeblockText content] else [])
    ++ adfWalkCodeList lang content

/-- The walk over a child list, left to right. -/
def adfWalkCodeList (lang : String) : List Adf → List String
  | [] => []
  | c :: cs => adfWalkCode lang c ++ adfWalkCodeList lang cs

end

/-- adf.py `adf_extract_codeblocks`; the Python default for `lang` is
`"gherkin"`. -/
def adf_extract_codeblocks (adf : Adf) (lang : String) : List String :=
  adfWalkCode lang adf

/-! ### src/core/dedupe.py and jira.py delete_issue -/

/-- One linked test entry as assembled by
`_group_linked_tests_by_signature` (the tracker fetch that fills it is the
external collaborator; the signature field carries the computed digest). -/
structure DedupeEntry where
  key : String
  created : String
  norm_title : String
  feature : String
  summary : String
  signature : String
deriving Repr, DecidableEq

instance : Inhabited DedupeEntry := ⟨⟨"", "", "", "", "", ""⟩⟩

/-- One `buckets.setdefault(sig, []).append(entry)` step: append to the
existing bucket in place, or append a fresh bucket at the end. -/
def bucketsAdd (m : List (String × List DedupeEntry)) (e : DedupeEntry) :
    List (String × List DedupeEntry) :=
  if m.any (fun p => p.1 == e.signature) then
    m.map (fun p => if p.1 == e.signature then (p.1, p.2 ++ [e]) else p)
  else m ++ [(e.signature, [e])]

/-- The signature-keyed buckets of `_group_linked_tests_by_signature`, in
Python dict insertion order. -/
def groupBySignature (entries : List DedupeEntry) :
    List (String × List DedupeEntry) :=
  entries.foldl bucketsAdd []

/-- The sort key `lambda x: x["created"] or ""` (the empty string stands in
for a missing timestamp and sorts lowest). -/
def createdKey (e : DedupeEntry) : String := pyOrStr (some e.created) ""

/-- Lexicographic comparison of character lists by code point (Python's
string ordering). -/
def lexLe : List Char → List Char → Bool
  | [], _ => true
  | _ :: _, [] => false
  | c :: cs, d :: ds => if c < d then true else if d < c then false else lexLe cs ds

/-- Python `a <= b` on strings. -/
def pyStrLe (a b : String) : Bool := lexLe a.data b.data

/-- Python `sorted(items, key=lambda x: x["created"] or "")`: a stable
ascending sort by creation timestamp (insertion sort is extensionally the
same stable ascending sort as Python's). -/
def sortByCreated (items : List DedupeEntry) : List DedupeEntry :=
  items.insertionSort (fun a b => pyStrLe (createdKey a) (createdKey b) = true)

/-- The per-bucket body of the `find_duplicates` loop: a singleton bucket is
kept outright, a larger bucket is sorted by creation date and split into one
survivor and the drop candidates according to `prefer`. -/
def fdStep (prefer : String) (kd : List DedupeEntry × List DedupeEntry)
    (g : String × List DedupeEntry) : List DedupeEntry × List DedupeEntry :=
  let items := g.2
  if items.length = 1 then (kd.1 ++ [items.headD default], kd.2)
  else
    let s := sortByCreated items
    if prefer = "oldest" then (kd.1 ++ [s.headD default], kd.2 ++ s.tail)
    else (kd.1 ++ [s.getLastD default], kd.2 ++ s.dropLast)

/-- dedupe.py `find_duplicates` on the grouped entries: one survivor per
bucket, the rest become drop candidates. -/
def find_duplicates (entries : List DedupeEntry) (prefer : String) :
    List DedupeEntry × List DedupeEntry :=
  (groupBySignature entries).foldl (fdStep prefer) ([], [])

/-- The record the `find_duplicates` loop keeps from one bucket. -/
def keepOfGroup (prefer : String) (items : List DedupeEntry) : DedupeEntry :=
  if items.length = 1 then items.headD default
  else
    let s := sortByCreated items
    if prefer = "oldest" then s.headD default else s.getLastD default

/-- The records the `find_duplicates` loop drops from one bucket. -/
def dropOfGroup (prefer : String) (items : List DedupeEntry) : List DedupeEntry :=
  if items.length = 1 then []
  else
    let s := sortByCreated items
    if prefer = "oldest" then s.tail else s.dropLast

/-- The dict returned by jira.py `delete_issue`. -/
structure JiraDeleteResult where
  ok : Bool
  deleted_key : Option String
  error : Option String
deriving Repr, DecidableEq

/-- The `jira_request(..., method="DELETE")` call inside `delete_issue`:
the HTTP collaborator either succeeds or raises, modelled by the `httpOk`
oracle. -/
def jira_request_delete (httpOk : String → Bool) (issue_key : String) :
    Except String Unit :=
  if httpOk issue_key then .ok () else .error ("DELETE failed for " ++ issue_key)

/-- jira.py `delete_issue`: the `try/except` catches every exception from
the request and turns it into an `ok: False` dict, so the function itself
never raises (it is always `Except.ok`). -/
def delete_issue (httpOk : String → Bool) (issue_key : String) :
    Except String JiraDeleteResult :=
  match jira_request_delete httpOk issue_key with
  | .ok _ => .ok { ok := true, deleted_key := some issue_key, error := none }
  | .error e => .ok { ok := false, deleted_key := none, error := some e }

/-- dedupe.py `delete_issues`: append each key to `deleted` unless the
`delete_issue` call raises (its `except` branch only logs). -/
def delete_issues (httpOk : String → Bool) (keys : List String) : List String :=
  keys.foldl
    (fun deleted k =>
      match delete_issue httpOk k with
      | .ok _ => deleted ++ [k]
      | .error _ => deleted) []

/-- The dict returned by dedupe.py `dedupe_linked_tests`. -/
structure DedupeReport where
  kept : List String
  dropped : List String
  deleted : List String
deriving Repr, DecidableEq

/-- dedupe.py `dedupe_linked_tests` over the linked-test entries (the fetch
inside `find_duplicates` is the external collaborator, modelled as the
input list). -/
def dedupe_linked_tests (entries : List DedupeEntry) (prefer : String)
    (httpOk : String → Bool) : DedupeReport :=
  let (keep, drop) := find_duplicates entries prefer
  let deleted := delete_issues httpOk (drop.map (fun d => d.key))
  { kept := keep.map (fun k => k.key),
    dropped := drop.map (fun d => d.key),
    deleted := deleted }

/-! ### src/core/llm.py llm_compare_and_sync -/

/-- An existing test dict as consumed by `llm_compare_and_sync`
(`norm_title` / `signature` may be missing or empty; `gherkin` defaults to
the empty string via `test.get("gherkin", "")`). -/
structure ExistingTest where
  key : String
  summary : String
  norm_title : Option String
  signature : Option String
  gherkin : String
deriving Repr, DecidableEq

/-- A generated scenario dict (`title` and `steps`). -/
structure NewScenario where
  title : String
  steps : String
deriving Repr, DecidableEq

/-- A `new_map` value: the scenario enriched with its signature. -/
structure NewData where
  title : String
  steps : String
  signature : String
deriving Repr, DecidableEq

/-- An `existing_map` value: `{**test, "norm_title": norm, "signature": sig}`. -/
structure FixedTest where
  key : String
  summary : String
  norm_title : String
  signature : String
  gherkin : String
deriving Repr, DecidableEq

/-- A `to_update` entry. -/
structure UpdateEntry where
  key : String
  summary : String
  steps : String
deriving Repr, DecidableEq

/-- The plan dict returned by `llm_compare_and_sync`. -/
structure SyncPlan where
  to_create : List NewData
  to_update : List UpdateEntry
  obsolete : List FixedTest
deriving Repr, DecidableEq

/-- Python dict assignment `m[k] = v`: replace the value in place if the key
exists (keeping its insertion position), else append. -/
def dUpsert (m : List (String × α)) (k : String) (v : α) : List (String × α) :=
  if m.any (fun p => p.1 == k) then
    m.map (fun p => if p.1 == k then (p.1, v) else p)
  else m ++ [(k, v)]

/-- Python dict lookup `m[k]` / `m.get(k)`. -/
def dLookup (m : List (String × α)) (k : String) : Option α :=
  (m.find? (fun p => p.1 == k)).map (fun p => p.2)

/-- Python `k in m`. -/
def dHasKey (m : List (String × α)) (k : String) : Bool :=
  m.any (fun p => p.1 == k)

/-- `norm = test.get("norm_title") or sanitize_title(issue_key, summary_text)`. -/
def existingNorm (issue_key : String) (t : ExistingTest) : String :=
  pyOrStr t.norm_title (sanitize_title issue_key (some t.summary))

/-- `sig = test.get("signature")`, recomputed from the gherkin body when
missing or empty. -/
def existingSig (issue_key : String) (t : ExistingTest) : String :=
  pyOrStr t.signature
    (if t.gherkin ≠ "" then make_signature (existingNorm issue_key t) t.gherkin
     else make_signature (existingNorm issue_key t) "")

/-- `test_fixed = {**test, "norm_title": norm, "signature": sig}`. -/
def fixTest (issue_key : String) (t : ExistingTest) : FixedTest :=
  { key := t.key, summary := t.summary, gherkin := t.gherkin,
    norm_title := existingNorm issue_key t,
    signature := existingSig issue_key t }

/-- The `existing_map` built by the first loop of `llm_compare_and_sync`
(normalized title to fixed record, last write wins). -/
def existingMap (issue_key : String) (existing_tests : List ExistingTest) :
    List (String × FixedTest) :=
  existing_tests.foldl
    (fun m t => dUpsert m (existingNorm issue_key t) (fixTest issue_key t)) []

/-- The sanitized title computed for a desired scenario (both occurrences of
`sanitize_title(issue_key, sc["title"])` in the `new_map` comprehension). -/
def desiredTitle (issue_key : String) (sc : NewScenario) : String :=
  sanitize_title issue_key (some sc.title)

/-- A `new_map` value for one scenario. -/
def enrichScenario (issue_key : String) (sc : NewScenario) : NewData :=
  { title := sc.title, steps := sc.steps,
    signature := make_signature (desiredTitle issue_key sc) sc.steps }

/-- The `new_map` dict comprehension (sanitized title to enriched scenario,
last write wins). -/
def newMap (issue_key : String) (new_scenarios : List NewScenario) :
    List (String × NewData) :=
  new_scenarios.foldl
    (fun m sc => dUpsert m (desiredTitle issue_key sc) (enrichScenario issue_key sc)) []

/-- Worker for Python `str.split("|")`: split at every occurrence of the
separator, keeping empty segments. -/
def splitPipeAux : List Char → List Char → List (List Char)
  | [], acc => [acc]
  | c :: rest, acc =>
    if c = '|' then acc :: splitPipeAux rest []
    else splitPipeAux rest (acc ++ [c])

/-- Python `s.split("|")`. -/
def pySplitPipe (s : String) : List String := (splitPipeAux s.data []).map String.mk

/-- The re-derived display summary of a `to_update` entry: first two
`|`-segments of the existing summary (stripped) when there are at least two,
else the issue key; final segment is the new scenario's title. -/
def updSummary (issue_key : String) (existing_summary new_title : String) : String :=
  match pySplitPipe existing_summary with
  | p0 :: p1 :: _ => pyStrip p0 ++ " | " ++ pyStrip p1 ++ " | " ++ new_title
  | _ => issue_key ++ " | " ++ new_title

/-- The dict appended to `to_update`. -/
def mkUpdate (issue_key : String) (et : FixedTest) (nd : NewData) : UpdateEntry :=
  { key := et.key, summary := updSummary issue_key et.summary nd.title,
    steps := nd.steps }

/-- The body of the loop over `new_map.items()`: a title absent from the
existing map yields a create, a present title with a differing signature
yields an update, a matching signature yields nothing. -/
def syncStep (issue_key : String) (em : List (String × FixedTest))
    (acc : List NewData × List UpdateEntry) (kv : String × NewData) :
    List NewData × List UpdateEntry :=
  if dHasKey em kv.1 = false then (acc.1 ++ [kv.2], acc.2)
  else
    match dLookup em kv.1 with
    | some existing_test =>
      if kv.2.signature ≠ existing_test.signature then
        (acc.1, acc.2 ++ [mkUpdate issue_key existing_test kv.2])
      else acc
    | none => acc

/-- The main loop over `new_map.items()` building `to_create`/`to_update`. -/
def syncFold (issue_key : String) (em : List (String × FixedTest))
    (nm : List (String × NewData)) : List NewData × List UpdateEntry :=
  nm.foldl (syncStep issue_key em) ([], [])

/-- The `obsolete` comprehension: every `existing_map` entry whose
normalized title is not a `new_map` key. -/
def obsoleteOf (em : List (String × FixedTest)) (nm : List (String × NewData)) :
    List FixedTest :=
  (em.filter (fun kv => dHasKey nm kv.1 = false)).map (fun kv => kv.2)

/-- llm.py `llm_compare_and_sync` (the `summary` argument is only logged by
the source, hence unused). -/
def llm_compare_and_sync (issue_key _summary : String)
    (existing_tests : List ExistingTest) (new_scenarios : List NewScenario) :
    SyncPlan :=
  let em := existingMap issue_key existing_tests
  let nm := newMap issue_key new_scenarios
  let cu := syncFold issue_key em nm
  { to_create := cu.1, to_update := cu.2, obsolete := obsoleteOf em nm }

/-- Exactly one of three alternatives holds. -/
def ExactlyOne3 (x y z : Prop) : Prop :=
  (x ∨ y ∨ z) ∧ ¬(x ∧ y) ∧ ¬(x ∧ z) ∧ ¬(y ∧ z)

/-- A lower-case hexadecimal digit character (a decimal digit or a code
point between 97 and 102). -/
def isHexChar (c : Char) : Bool :=
  c.isDigit || (97 ≤ c.toNat && c.toNat ≤ 102)

/-! ### Concrete fixtures used by counterexamples and witnesses -/

/-- An existing test whose normalized title collides with `cexE2`. -/
def cexE1 : ExistingTest :=
  { key := "K1", summary := "s1", norm_title := some "Validate T",
    signature := some "sig1", gherkin := "" }

/-- An existing test whose normalized title collides with `cexE1`. -/
def cexE2 : ExistingTest :=
  { key := "K2", summary := "s2", norm_title := some "Validate T",
    signature := some "sig2", gherkin := "" }

/-- Existing test for the C3 scenario: summary with key and sequence tag,
matched by normalized title, stored signature differs from any recomputed
one. -/
def cexE3 : ExistingTest :=
  { key := "T-1", summary := "PROJ-123 | TC01 | Validate Login",
    norm_title := some "Validate Login Extended",
    signature := some "oldsig", gherkin := "" }

/-- Desired scenario for the C3 scenario: its raw title sanitizes to
`"Validate Login Extended"`. -/
def cexD3 : NewScenario :=
  { title := "Validate Validate Login Extended", steps := "Given new" }

/-- A single existing test used by the C2 witness. -/
def witE : ExistingTest :=
  { key := "T-2", summary := "TEST-1 | Validate Login",
    norm_title := some "Validate Login", signature := some "s1", gherkin := "" }

/-- A single desired scenario used by the C2 witness. -/
def witD : NewScenario := { title := "Validate Login", steps := "Given x" }

/-- Two dedupe entries sharing a signature, used by the C5 witness. -/
def witA : DedupeEntry :=
  { key := "A", created := "2024-01-01", norm_title := "", feature := "",
    summary := "", signature := "s" }

/-- Second dedupe entry sharing a signature with `witA`. -/
def witB : DedupeEntry :=
  { key := "B", created := "2024-02-01", norm_title := "", feature := "",
    summary := "", signature := "s" }

/-! ### Sanity checks of the hash embeddings against published test vectors -/

theorem sha1_known_vector :
    sha1Hex (utf8Bytes "abc") = "a9993e364706816aba3e25717850c26c9cd0d89d" := by
  decide

theorem md5_known_vector :
    md5Hex (utf8Bytes "abc") = "900150983cd24fb0d6963f7d28e17f72" := by
  decide

theorem md5_known_vector_empty :
    md5Hex (utf8Bytes "") = "d41d8cd98f00b204e9800998ecf8427e" := by
  decide

/-! ### Helper lemmas -/

/-- Two strings with the same character data are equal. -/
theorem str_data_inj {s t : String} (h : s.data = t.data) : s = t :=
  String.ext h

/-- Splitting at the separator: lists not containing the separator followed
by it determine each other. -/
theorem append_pipe_inj {a b c d : List Char}
    (ha : '|' ∉ a) (hc : '|' ∉ c)
    (h : a ++ '|' :: b = c ++ '|' :: d) : a = c ∧ b = d := by
  induction a generalizing c with
  | nil =>
    cases c with
    | nil => simpa using h
    | cons y ys =>
      simp only [List.nil_append, List.cons_append, List.cons.injEq] at h
      exact absurd (by simp [← h.1]) hc
  | cons x xs ih =>
    cases c with
    | nil =>
      simp only [List.cons_append, List.nil_append, List.cons.injEq] at h
      exact absurd (by simp [h.1]) ha
    | cons y ys =>
      simp only [List.cons_append, List.cons.injEq] at h
      have hxs : '|' ∉ xs := fun hm => ha (List.mem_cons_of_mem _ hm)
      have hys : '|' ∉ ys := fun hm => hc (List.mem_cons_of_mem _ hm)
      obtain ⟨h1, h2⟩ := ih hxs hys h.2
      exact ⟨by rw [h.1, h1], h2⟩

/-! ### Claim C6 -/

/-- Claim C6: `sanitize_title` is total - every input, including `None` and
whitespace-only titles, yields a non-empty canonical title of the form
`"Validate " ++ core` with `core` non-empty - and it satisfies the spec's
four examples for context key `"PROJ-123"`. -/
theorem c6_sanitize_title_total_and_examples :
    (sanitize_title "PROJ-123" (some "PROJ-123 | TC01 | Validate Login")
        = "Validate Login"
      ∧ sanitize_title "PROJ-123" (some "Validate Validate Login")
        = "Validate Login"
      ∧ sanitize_title "PROJ-123" none = "Validate Untitled Scenario"
      ∧ sanitize_title "PROJ-123" (some "   ") = "Validate Untitled Scenario")
    ∧ ∀ (issue_key : String) (raw : Option String),
        ∃ core, sanitize_title issue_key raw = "Validate " ++ core ∧ core ≠ "" := by
  refine ⟨⟨by decide, by decide, by decide, by decide⟩, ?_⟩
  intro issue_key raw
  refine ⟨_, rfl, ?_⟩
  split
  · decide
  · assumption

/-! ### Claim C7 -/

/-- Claim C7: `make_signature` is deterministic, body-sensitive on the
concrete pair (`("A","B")` vs `("A","C")`), and invariant under case and
surrounding-whitespace changes of its arguments. -/
theorem c7_make_signature_properties :
    (∀ t b : String, make_signature t b = make_signature t b)
    ∧ make_signature "A" "B" ≠ make_signature "A" "C"
    ∧ make_signature "Foo" "Bar" = make_signature " foo " "bar" := by
  refine ⟨fun t b => rfl, by decide, ?_⟩
  show sha1Hex (utf8Bytes (sig_payload "Foo" "Bar"))
      = sha1Hex (utf8Bytes (sig_payload " foo " "bar"))
  rw [show sig_payload "Foo" "Bar" = sig_payload " foo " "bar" from by decide]

/-! ### Claim C4 -/

/-- Claim C4 counterexample: the separator `|` survives normalization, so the
distinct normalized pairs of `("a|b", "c")` and `("a", "b|c")` produce the
same pre-hash payload and hence the same signature - refuting the claim that
distinct normalized pairs always yield distinct payloads (and that equal
signatures imply the same test). -/
theorem c4_counterexample :
    sig_payload "a|b" "c" = sig_payload "a" "b|c"
    ∧ make_signature "a|b" "c" = make_signature "a" "b|c"
    ∧ (norm_gherkin "a|b", norm_gherkin "c") ≠ (norm_gherkin "a", norm_gherkin "b|c") := by
  refine ⟨by decide, ?_, by decide⟩
  show sha1Hex (utf8Bytes (sig_payload "a|b" "c"))
      = sha1Hex (utf8Bytes (sig_payload "a" "b|c"))
  rw [show sig_payload "a|b" "c" = sig_payload "a" "b|c" from by decide]

/-- Claim C4 (amended): the payload joins the normalized title and body with
`"|"`; equal normalized pairs always give equal signatures, and whenever the
normalized titles are `|`-free, equal payloads conversely force equal
normalized pairs.  (Injectivity fails in general because `|` can occur in
normalized text - see the counterexample.) -/
theorem c4_payload_injective_without_separator (t1 b1 t2 b2 : String) :
    (norm_gherkin t1 = norm_gherkin t2 → norm_gherkin b1 = norm_gherkin b2 →
      make_signature t1 b1 = make_signature t2 b2)
    ∧ ('|' ∉ (norm_gherkin t1).data → '|' ∉ (norm_gherkin t2).data →
        sig_payload t1 b1 = sig_payload t2 b2 →
        norm_gherkin t1 = norm_gherkin t2 ∧ norm_gherkin b1 = norm_gherkin b2) := by
  constructor
  · intro ht hb
    show sha1Hex (utf8Bytes (sig_payload t1 b1)) = sha1Hex (utf8Bytes (sig_payload t2 b2))
    unfold sig_payload
    rw [ht, hb]
  · intro h1 h2 hp
    unfold sig_payload at hp
    have hd : (norm_gherkin t1).data ++ '|' :: (norm_gherkin b1).data
        = (norm_gherkin t2).data ++ '|' :: (norm_gherkin b2).data := by
      have := congrArg String.data hp
      simpa [String.data_append] using this
    obtain ⟨hl, hr⟩ := append_pipe_inj h1 h2 hd
    exact ⟨str_data_inj hl, str_data_inj hr⟩

/-- Witness for the amended C4: concrete instances discharging each
hypothesis. -/
theorem c4_payload_injective_without_separator_witness :
    make_signature "Foo" "Bar" = make_signature " foo " "bar"
    ∧ (norm_gherkin "x" = norm_gherkin " X " ∧ norm_gherkin "y" = norm_gherkin "Y ") :=
  ⟨(c4_payload_injective_without_separator "Foo" "Bar" " foo " "bar").1
      (by decide) (by decide),
   (c4_payload_injective_without_separator "x" "y" " X " "Y ").2
      (by decide) (by decide) (by decide)⟩

/-! ### Claim C9 -/

/-- Claim C9: building a document via `adf_with_code_block` with a non-empty
title and extracting code blocks with the default language `"gherkin"`
returns exactly the one-element list containing the original code string. -/
theorem c9_codeblock_roundtrip (title code : String) (h : title ≠ "") :
    adf_extract_codeblocks (adf_with_code_block title code) "gherkin" = [code] := by
  unfold adf_extract_codeblocks adf_with_code_block
  rw [if_neg h]
  simp [adfWalkCode, adfWalkCodeList, langMatches, attrGet, codeblockText,
    adfTextNode, String.join]

/-- Witness for C9 at the spec's concrete example. -/
theorem c9_codeblock_roundtrip_witness :
    adf_extract_codeblocks (adf_with_code_block "Title" "Given a user\nWhen...")
      "gherkin" = ["Given a user\nWhen..."] :=
  c9_codeblock_roundtrip "Title" "Given a user\nWhen..." (by decide)

/-! ### Claim C1 -/

/-- Claim C1 (code bug): `delete_issues` can never omit a key from `deleted`,
whatever the HTTP collaborator does, because `delete_issue` catches every
exception itself and returns an `ok: False` dict instead of raising; on the
concrete two-duplicate input whose deletions all fail, the failed drop
candidate `"T-1"` still appears in `deleted`, contradicting the claimed
`dropped`-but-not-`deleted` reporting. -/
theorem c1_failed_deletion_still_in_deleted :
    (∀ (httpOk : String → Bool) (keys : List String),
      delete_issues httpOk keys = keys)
    ∧ dedupe_linked_tests [witA, witB] "newest" (fun _ => false)
        = { kept := ["B"], dropped := ["A"], deleted := ["A"] } := by
  constructor
  · intro httpOk keys
    have hstep : ∀ (acc : List String) k,
        (match delete_issue httpOk k with
          | .ok _ => acc ++ [k]
          | .error _ => acc) = acc ++ [k] := by
      intro acc k
      unfold delete_issue jira_request_delete
      cases httpOk k <;> simp
    show keys.foldl _ [] = keys
    suffices hgen : ∀ acc : List String, keys.foldl
        (fun deleted k =>
          match delete_issue httpOk k with
          | .ok _ => deleted ++ [k]
          | .error _ => deleted) acc = acc ++ keys by
      simpa using hgen []
    induction keys with
    | nil => intro acc; simp
    | cons k ks ih =>
      intro acc
      rw [List.foldl_cons, hstep, ih]
      simp
  · decide

/-! ### Claim C8 -/

/-- `String.mk` undoes `String.data`. -/
theorem mk_data (s : String) : String.mk s.data = s := rfl

/-- A leading occurrence of the pattern is replaced. -/
theorem replaceOnceAux_append (old new rest : List Char) (h : old ≠ []) :
    replaceOnceAux old new (old ++ rest) = new ++ rest := by
  cases old with
  | nil => exact absurd rfl h
  | cons c cs =>
    show replaceOnceAux (c :: cs) new (c :: (cs ++ rest)) = new ++ rest
    have hpre : (c :: cs).isPrefixOf (c :: (cs ++ rest)) = true := by
      rw [List.isPrefixOf_iff_prefix]
      exact List.prefix_append _ _
    simp only [replaceOnceAux, hpre, if_true]
    show new ++ ((c :: cs) ++ rest).drop (c :: cs).length = new ++ rest
    rw [List.drop_left]

/-- When the pattern occurs nowhere, nothing is replaced. -/
theorem replaceOnceAux_not_infix (old new : List Char) (l : List Char)
    (h : ¬ old <:+: l) : replaceOnceAux old new l = l := by
  induction l with
  | nil => simp [replaceOnceAux]
  | cons c rest ih =>
    have hb : old.isPrefixOf (c :: rest) = false := by
      cases hb : old.isPrefixOf (c :: rest) with
      | false => rfl
      | true =>
        obtain ⟨t, ht⟩ := List.isPrefixOf_iff_prefix.mp hb
        exact absurd ⟨[], t, by simpa using ht⟩ h
    simp only [replaceOnceAux, hb, Bool.false_eq_true, if_false]
    rw [ih (fun hi => h (List.infix_cons hi))]

/-- `str.replace(old, new, 1)` removes a leading `"Validate "`. -/
theorem pyReplaceOnce_leading (t : String) :
    pyReplaceOnce ("Validate " ++ t) "Validate " "" = t := by
  unfold pyReplaceOnce
  rw [if_neg (by decide)]
  rw [String.data_append, replaceOnceAux_append _ _ _ (by decide)]
  exact mk_data t

/-- `str.replace(old, new, 1)` leaves a string without any occurrence
unchanged. -/
theorem pyReplaceOnce_no_occurrence (t : String)
    (h : ¬ ("Validate ".data <:+: t.data)) :
    pyReplaceOnce t "Validate " "" = t := by
  unfold pyReplaceOnce
  rw [if_neg (by decide), replaceOnceAux_not_infix _ _ _ h]

/-- Claim C8 counterexample: for the title `"Check Validate Login"`, which has
no leading `"Validate "` marker, the rendered Scenario line is
`"  Scenario: Check Login"` - the code removed a non-leading occurrence,
refuting the claim that only a leading occurrence is removed. -/
theorem c8_counterexample :
    build_feature_body "S" "K"
        { title := some "Check Validate Login", steps := some "Given x" }
      = ["@K", "Feature: S", "  # Source: K", "", "  Scenario: Check Login",
         "    Given x", ""]
    ∧ "Check Login" ≠ "Check Validate Login" := by
  constructor
  · decide
  · decide

/-- Claim C8 (amended): the Scenario line carries the title with the first
(leftmost) occurrence of `"Validate "` removed, wherever it occurs - in
particular a leading occurrence when present, and no change when the marker
does not occur - and every step line of the steps field appears trimmed, one
output line per input line, indented by exactly four spaces. -/
theorem c8_feature_lines (summary issue_key title steps : String) :
    (build_feature_body summary issue_key ⟨some title, some steps⟩).length
        = 6 + (pySplitlines steps).length
    ∧ (build_feature_body summary issue_key ⟨some title, some steps⟩)[4]?
        = some ("  Scenario: " ++ pyReplaceOnce title "Validate " "")
    ∧ (∀ i, i < (pySplitlines steps).length →
        (build_feature_body summary issue_key ⟨some title, some steps⟩)[5 + i]?
          = some ("    " ++ pyStrip ((pySplitlines steps).getD i "")))
    ∧ (build_feature_body summary issue_key ⟨some title, some steps⟩).getLast?
        = some ""
    ∧ (∀ t : String, pyReplaceOnce ("Validate " ++ t) "Validate " "" = t)
    ∧ (¬ ("Validate ".data <:+: title.data) →
        pyReplaceOnce title "Validate " "" = title) := by
  refine ⟨?_, ?_, ?_, ?_, pyReplaceOnce_leading, pyReplaceOnce_no_occurrence title⟩
  · simp only [build_feature_body, Option.getD_some, List.length_append,
      List.length_map, List.length_cons, List.length_nil]
    try omega
  · simp [build_feature_body]
  · intro i hi
    simp only [build_feature_body, Option.getD_some]
    rw [List.append_assoc, List.getElem?_append_right (by simp)]
    simp only [List.length_cons, List.length_nil]
    rw [show 5 + i - (0 + 1 + 1 + 1 + 1 + 1) = i by omega]
    rw [List.getElem?_append_left (by simpa using hi), List.getElem?_map,
      List.getElem?_eq_getElem hi]
    simp [List.getD_eq_getElem?_getD, List.getElem?_eq_getElem hi]
  · simp only [build_feature_body, Option.getD_some, ← List.append_assoc]
    exact List.getLast?_concat _

/-- Witness for the amended C8 at a concrete scenario. -/
theorem c8_feature_lines_witness :
    (build_feature_body "S" "K" ⟨some "Check Me", some "Given a\nThen b"⟩)[5]?
        = some ("    " ++ pyStrip ((pySplitlines "Given a\nThen b").getD 0 ""))
    ∧ pyReplaceOnce "Check Me" "Validate " "" = "Check Me" :=
  ⟨by
    have h := (c8_feature_lines "S" "K" "Check Me" "Given a\nThen b").2.2.1 0 (by decide)
    simpa using h,
   (c8_feature_lines "S" "K" "Check Me" "Given a\nThen b").2.2.2.2.2 (by decide)⟩

/-! ### Claim C10 -/

/-- The MD5 digest always has 16 bytes. -/
theorem md5Bytes_length (msg : List Nat) : (md5Bytes msg).length = 16 := by
  unfold md5Bytes
  rcases (chunks64 (md5Pad msg)).foldl md5Compress
    (0x67452301, 0xefcdab89, 0x98badcfe, 0x10325476) with ⟨a, b, c, d⟩
  simp [le4]

/-- Hex expansion doubles the length. -/
theorem foldr_byteHex_length (bs : List Nat) :
    (bs.foldr (fun b r => byteHex b ++ r) []).length = 2 * bs.length := by
  induction bs with
  | nil => simp
  | cons b rest ih =>
    have hb : (byteHex b).length = 2 := rfl
    simp only [List.foldr_cons, List.length_append, hb, ih, List.length_cons]
    omega

/-- Every character `hexChar` produces for an index below 16 is a hex digit. -/
theorem isHexChar_hexChar : ∀ m, m < 16 → isHexChar (hexChar m) = true := by
  decide

/-- Every character of an MD5 hexdigest is a lower-case hex digit. -/
theorem foldr_byteHex_hex (bs : List Nat) :
    ∀ c ∈ bs.foldr (fun b r => byteHex b ++ r) [], isHexChar c = true := by
  induction bs with
  | nil => simp
  | cons b rest ih =>
    intro c hc
    simp only [List.foldr_cons, byteHex, List.cons_append, List.nil_append,
      List.mem_cons] at hc
    rcases hc with h | h | h
    · rw [h]
      exact isHexChar_hexChar _ (Nat.lt_succ_of_le (Nat.and_le_right))
    · rw [h]
      exact isHexChar_hexChar _ (Nat.lt_succ_of_le (Nat.and_le_right))
    · exact ih c h

/-- The MD5 hexdigest has 32 characters, all hex digits. -/
theorem md5Hex_shape (msg : List Nat) :
    (md5Hex msg).length = 32 ∧ ∀ c ∈ (md5Hex msg).data, isHexChar c = true := by
  constructor
  · show (String.mk _).length = 32
    rw [String.length_mk, foldr_byteHex_length, md5Bytes_length]
  · intro c hc
    exact foldr_byteHex_hex _ c hc

/-- Claim C10: when no line of the steps string begins (after optional
whitespace) with a step keyword, `steps_signature` returns the empty string;
when at least one line does, it returns a 32-character string of hexadecimal
digits. -/
theorem c10_steps_signature_shape (steps : String) :
    (((pySplitlines steps).all (fun l => !stepRxMatch l)) →
        steps_signature steps = "")
    ∧ ((∃ l ∈ pySplitlines steps, stepRxMatch l = true) →
        (steps_signature steps).length = 32
        ∧ ∀ c ∈ (steps_signature steps).data, isHexChar c = true) := by
  constructor
  · intro hall
    unfold steps_signature
    have hfil : (pySplitlines steps).filter stepRxMatch = [] := by
      rw [List.filter_eq_nil_iff]
      intro a ha
      have := List.all_eq_true.mp hall a ha
      simpa using this
    rw [hfil]
    simp
  · intro ⟨l, hl, hmatch⟩
    unfold steps_signature
    have hfil : ((pySplitlines steps).filter stepRxMatch) ≠ [] := by
      intro hcon
      have := List.filter_eq_nil_iff.mp hcon l hl
      simp [hmatch] at this
    have hmap : (((pySplitlines steps).filter stepRxMatch).map
        (fun raw => pyLower (pyStrip raw))).isEmpty = false := by
      rw [List.isEmpty_eq_false_iff_exists_mem]
      obtain ⟨x, hx⟩ := List.exists_mem_of_ne_nil _ hfil
      exact ⟨pyLower (pyStrip x), List.mem_map_of_mem _ hx⟩
    rw [if_neg (by simp [hmap])]
    exact md5Hex_shape _

/-- Witness for C10: a comment-only steps string yields the empty signature,
a keyword line yields a 32-character digest. -/
theorem c10_steps_signature_shape_witness :
    steps_signature "some comment line" = ""
    ∧ (steps_signature "Given a user").length = 32 :=
  ⟨(c10_steps_signature_shape "some comment line").1 (by decide),
   ((c10_steps_signature_shape "Given a user").2
      ⟨"Given a user", by decide, by decide⟩).1⟩

/-! ### Claim C5 -/

/-- `lexLe` is total. -/
theorem lexLe_total (a b : List Char) : lexLe a b = true ∨ lexLe b a = true := by
  induction a generalizing b with
  | nil => left; rfl
  | cons c cs ih =>
    cases b with
    | nil => right; rfl
    | cons d ds =>
      rcases lt_trichotomy c d with h | h | h
      · left; simp [lexLe, h]
      · subst h
        rcases ih ds with h2 | h2
        · left; simp [lexLe, h2]
        · right; simp [lexLe, h2]
      · right; simp [lexLe, h]

/-- `lexLe` is transitive. -/
theorem lexLe_trans : ∀ {a b c : List Char},
    lexLe a b = true → lexLe b c = true → lexLe a c = true := by
  intro a
  induction a with
  | nil => intro b c _ _; rfl
  | cons x xs ih =>
    intro b c h1 h2
    cases b with
    | nil => simp [lexLe] at h1
    | cons y ys =>
      cases c with
      | nil => simp [lexLe] at h2
      | cons z zs =>
        by_cases hxy : x < y
        · by_cases hyz : y < z
          · simp [lexLe, lt_trans hxy hyz]
          · by_cases hzy : z < y
            · simp [lexLe, hyz, hzy] at h2
            · have hyeq : y = z := le_antisymm (not_lt.mp hzy) (not_lt.mp hyz)
              subst hyeq
              simp [lexLe, hxy]
        · by_cases hyx : y < x
          · simp [lexLe, hxy, hyx] at h1
          · have hxeq : x = y := le_antisymm (not_lt.mp hyx) (not_lt.mp hxy)
            subst hxeq
            simp only [lexLe, lt_irrefl, if_false] at h1
            by_cases hxz : x < z
            · simp [lexLe, hxz]
            · by_cases hzx : z < x
              · simp [lexLe, hxz, hzx] at h2
              · have hzeq : x = z := le_antisymm (not_lt.mp hzx) (not_lt.mp hxz)
                subst hzeq
                simp only [lexLe, lt_irrefl, if_false] at h2 ⊢
                exact ih h1 h2

/-- Every bucket produced by `bucketsAdd` stays non-empty. -/
theorem bucketsAdd_nonempty (m : List (String × List DedupeEntry)) (e : DedupeEntry)
    (hm : ∀ g ∈ m, g.2 ≠ []) : ∀ g ∈ bucketsAdd m e, g.2 ≠ [] := by
  intro g hg
  unfold bucketsAdd at hg
  split at hg
  · obtain ⟨p, hp, hpe⟩ := List.mem_map.mp hg
    by_cases hc : (p.1 == e.signature) = true
    · rw [if_pos hc] at hpe
      rw [← hpe]
      simp
    · rw [if_neg hc] at hpe
      rw [← hpe]
      exact hm p hp
  · rcases List.mem_append.mp hg with h | h
    · exact hm g h
    · simp only [List.mem_singleton] at h
      rw [h]
      simp

/-- Every bucket of `groupBySignature` is non-empty. -/
theorem groupBySignature_nonempty (entries : List DedupeEntry) :
    ∀ g ∈ groupBySignature entries, g.2 ≠ [] := by
  suffices hgen : ∀ m, (∀ g ∈ m, g.2 ≠ []) →
      ∀ g ∈ entries.foldl bucketsAdd m, g.2 ≠ [] from hgen [] (by simp)
  induction entries with
  | nil => intro m hm; simpa using hm
  | cons e es ih =>
    intro m hm
    rw [List.foldl_cons]
    exact ih _ (bucketsAdd_nonempty m e hm)

/-- One `find_duplicates` loop step appends the survivor and the drops of the
bucket. -/
theorem fdStep_eq (prefer : String) (kd : List DedupeEntry × List DedupeEntry)
    (g : String × List DedupeEntry) :
    fdStep prefer kd g
      = (kd.1 ++ [keepOfGroup prefer g.2], kd.2 ++ dropOfGroup prefer g.2) := by
  unfold fdStep keepOfGroup dropOfGroup
  by_cases h1 : g.2.length = 1
  · simp [h1]
  · by_cases h2 : prefer = "oldest"
    · simp [h1, h2]
    · simp [h1, h2]

/-- The whole `find_duplicates` loop is the bucket-wise map / flat-map. -/
theorem foldl_fdStep (prefer : String)
    (groups : List (String × List DedupeEntry)) :
    ∀ kd : List DedupeEntry × List DedupeEntry,
      groups.foldl (fdStep prefer) kd
        = (kd.1 ++ groups.map (fun g => keepOfGroup prefer g.2),
           kd.2 ++ groups.flatMap (fun g => dropOfGroup prefer g.2)) := by
  induction groups with
  | nil => intro kd; simp
  | cons g gs ih =>
    intro kd
    rw [List.foldl_cons, fdStep_eq, ih]
    simp

/-- Claim C5: `find_duplicates` keeps exactly one record per signature group:
the keep list is the bucket-wise survivor map, the drop list the bucket-wise
drop flat-map; a singleton bucket keeps its sole member; a larger bucket is
stably sorted ascending by creation timestamp (the empty timestamp being the
least possible key), keeping the first member when `prefer = "oldest"` and
the last member otherwise; in every case the survivor together with the drops
is a permutation of the bucket. -/
theorem c5_find_duplicates_policy (entries : List DedupeEntry) (prefer : String) :
    (find_duplicates entries prefer).1
        = (groupBySignature entries).map (fun g => keepOfGroup prefer g.2)
    ∧ (find_duplicates entries prefer).2
        = (groupBySignature entries).flatMap (fun g => dropOfGroup prefer g.2)
    ∧ (find_duplicates entries prefer).1.length = (groupBySignature entries).length
    ∧ (∀ s : String, pyStrLe "" s = true)
    ∧ (∀ g ∈ groupBySignature entries,
        (sortByCreated g.2).Perm g.2
        ∧ (sortByCreated g.2).Pairwise
            (fun a b => pyStrLe (createdKey a) (createdKey b) = true)
        ∧ (keepOfGroup prefer g.2 :: dropOfGroup prefer g.2).Perm g.2
        ∧ (∀ e, g.2 = [e] → keepOfGroup prefer g.2 = e)
        ∧ (1 < g.2.length →
            (prefer = "oldest" →
              keepOfGroup prefer g.2 = (sortByCreated g.2).headD default
              ∧ dropOfGroup prefer g.2 = (sortByCreated g.2).tail)
            ∧ (prefer ≠ "oldest" →
              keepOfGroup prefer g.2 = (sortByCreated g.2).getLastD default
              ∧ dropOfGroup prefer g.2 = (sortByCreated g.2).dropLast))) := by
  have hfold := foldl_fdStep prefer (groupBySignature entries) ([], [])
  have h1 : (find_duplicates entries prefer).1
      = (groupBySignature entries).map (fun g => keepOfGroup prefer g.2) := by
    unfold find_duplicates
    rw [hfold]
    simp
  refine ⟨h1, ?_, by rw [h1, List.length_map], fun s => rfl, ?_⟩
  · unfold find_duplicates
    rw [hfold]
    simp
  · intro g hg
    have hne : g.2 ≠ [] := groupBySignature_nonempty entries g hg
    haveI htot : IsTotal DedupeEntry
        (fun a b => pyStrLe (createdKey a) (createdKey b) = true) :=
      ⟨fun a b => lexLe_total _ _⟩
    haveI htr : IsTrans DedupeEntry
        (fun a b => pyStrLe (createdKey a) (createdKey b) = true) :=
      ⟨fun _ _ _ hab hbc => lexLe_trans hab hbc⟩
    have hperm : (sortByCreated g.2).Perm g.2 := List.perm_insertionSort _ _
    have hsorted : (sortByCreated g.2).Pairwise
        (fun a b => pyStrLe (createdKey a) (createdKey b) = true) :=
      List.sorted_insertionSort _ _
    have hsne : sortByCreated g.2 ≠ [] := by
      intro hcon
      refine hne (List.length_eq_zero.mp ?_)
      rw [← hperm.length_eq, hcon]
      rfl
    refine ⟨hperm, hsorted, ?_, ?_, ?_⟩
    · by_cases hlen : g.2.length = 1
      · obtain ⟨e, he⟩ := List.length_eq_one.mp hlen
        rw [he]
        simp [keepOfGroup, dropOfGroup, he]
      · obtain ⟨x, xs, hs⟩ := List.exists_cons_of_ne_nil hsne
        by_cases hp : prefer = "oldest"
        · have hk : keepOfGroup prefer g.2 = (sortByCreated g.2).headD default := by
            simp [keepOfGroup, hlen, hp]
          have hd : dropOfGroup prefer g.2 = (sortByCreated g.2).tail := by
            simp [dropOfGroup, hlen, hp]
          rw [hk, hd, hs]
          simpa using (hs ▸ hperm)
        · have hk : keepOfGroup prefer g.2 = (sortByCreated g.2).getLastD default := by
            simp [keepOfGroup, hlen, hp]
          have hd : dropOfGroup prefer g.2 = (sortByCreated g.2).dropLast := by
            simp [dropOfGroup, hlen, hp]
          rw [hk, hd]
          have hlast : (sortByCreated g.2).getLastD default
              = (sortByCreated g.2).getLast hsne := by
            rw [List.getLastD_eq_getLast?, List.getLast?_eq_getLast _ hsne]
            rfl
          rw [hlast]
          have hsplit : (sortByCreated g.2).dropLast
              ++ [(sortByCreated g.2).getLast hsne] = sortByCreated g.2 :=
            List.dropLast_append_getLast hsne
          have hperm2 : ([(sortByCreated g.2).getLast hsne]
              ++ (sortByCreated g.2).dropLast).Perm
              ((sortByCreated g.2).dropLast ++ [(sortByCreated g.2).getLast hsne]) :=
            List.perm_append_comm
          exact ((hsplit ▸ hperm2).trans hperm)
    · intro e he
      rw [he]
      simp [keepOfGroup]
    · intro hlen
      have hne1 : ¬ g.2.length = 1 := by omega
      constructor
      · intro hp
        constructor
        · simp [keepOfGroup, hne1, hp]
        · simp [dropOfGroup, hne1, hp]
      · intro hp
        constructor
        · simp [keepOfGroup, hne1, hp]
        · simp [dropOfGroup, hne1, hp]

/-- Witness for C5: the concrete two-element group of `witA`/`witB`. -/
theorem c5_find_duplicates_policy_witness :
    (sortByCreated [witA, witB]).Perm [witA, witB]
    ∧ (keepOfGroup "newest" [witA, witB] :: dropOfGroup "newest" [witA, witB]).Perm
        [witA, witB]
    ∧ pyStrLe "" "2024-01-01" = true :=
  have h := (c5_find_duplicates_policy [witA, witB] "newest").2.2.2.2
    ("s", [witA, witB]) (by decide)
  ⟨h.1, h.2.2.1, (c5_find_duplicates_policy [witA, witB] "newest").2.2.2.1 "2024-01-01"⟩

/-! ### Dictionary lemmas for the reconciliation proofs -/

/-- Key membership in the dict model. -/
theorem dHasKey_iff {α : Type} (m : List (String × α)) (k : String) :
    dHasKey m k = true ↔ ∃ p ∈ m, p.1 = k := by
  simp [dHasKey, List.any_eq_true, beq_iff_eq]

/-- Inserting a fresh key appends. -/
theorem dUpsert_fresh {α : Type} (m : List (String × α)) (k : String) (v : α)
    (h : dHasKey m k = false) : dUpsert m k v = m ++ [(k, v)] := by
  unfold dHasKey at h
  unfold dUpsert
  rw [h]
  simp

/-- Folding fresh upserts over a list with pairwise-distinct keys builds the
association list of the key/value map. -/
theorem foldl_dUpsert_eq_map {β α : Type} (f : β → String) (g : β → α) :
    ∀ (l : List β) (m : List (String × α)),
      (l.map f).Nodup → (∀ t ∈ l, dHasKey m (f t) = false) →
      l.foldl (fun m t => dUpsert m (f t) (g t)) m
        = m ++ l.map (fun t => (f t, g t)) := by
  intro l
  induction l with
  | nil => intro m _ _; simp
  | cons t ts ih =>
    intro m hnd hfresh
    rw [List.map_cons] at hnd
    have hnd' := List.nodup_cons.mp hnd
    rw [List.foldl_cons, dUpsert_fresh _ _ _ (hfresh t (by simp))]
    have hfresh2 : ∀ u ∈ ts, dHasKey (m ++ [(f t, g t)]) (f u) = false := by
      intro u hu
      have h1 : dHasKey m (f u) = false := hfresh u (List.mem_cons_of_mem _ hu)
      have h2 : ¬ f u = f t :=
        fun he => hnd'.1 (he ▸ List.mem_map_of_mem f hu)
      unfold dHasKey at h1 ⊢
      rw [List.any_append, h1]
      simp [beq_iff_eq]
      exact fun he => h2 he.symm
    rw [ih (m ++ [(f t, g t)]) hnd'.2 hfresh2]
    simp

/-- Lookup at the head key. -/
theorem dLookup_cons_self {α : Type} (k : String) (v : α) (m : List (String × α)) :
    dLookup ((k, v) :: m) k = some v := by
  unfold dLookup
  rw [List.find?_cons_of_pos]
  · rfl
  · simp

/-- Lookup skips a non-matching head. -/
theorem dLookup_cons_ne {α : Type} (k' k : String) (v : α) (m : List (String × α))
    (h : k' ≠ k) : dLookup ((k', v) :: m) k = dLookup m k := by
  unfold dLookup
  rw [List.find?_cons_of_neg]
  simp [h]

/-- An empty lookup means no pair carries the key. -/
theorem dLookup_eq_none_iff {α : Type} (m : List (String × α)) (k : String) :
    dLookup m k = none ↔ ∀ p ∈ m, p.1 ≠ k := by
  unfold dLookup
  simp [List.find?_eq_none, beq_iff_eq]

/-- A successful lookup returns a pair of the list. -/
theorem dLookup_some_mem {α : Type} {m : List (String × α)} {k : String} {v : α}
    (h : dLookup m k = some v) : (k, v) ∈ m := by
  unfold dLookup at h
  obtain ⟨p, hfind, hsnd⟩ := Option.map_eq_some'.mp h
  have hmem := List.mem_of_find?_eq_some hfind
  have hkey : p.1 = k := by simpa [beq_iff_eq] using List.find?_some hfind
  obtain ⟨a, b⟩ := p
  simp only at hsnd hkey
  rw [← hkey, ← hsnd]
  exact hmem

/-- With pairwise-distinct keys, every pair of the list is found by lookup. -/
theorem dLookup_mem_nodup {α : Type} :
    ∀ (m : List (String × α)) (p : String × α),
      (m.map Prod.fst).Nodup → p ∈ m → dLookup m p.1 = some p.2 := by
  intro m
  induction m with
  | nil => intro p _ hp; cases hp
  | cons q qs ih =>
    intro p hnd hp
    rw [List.map_cons] at hnd
    have hnd' := List.nodup_cons.mp hnd
    rcases List.mem_cons.mp hp with rfl | hp2
    · obtain ⟨a, b⟩ := p
      exact dLookup_cons_self a b qs
    · have hne : q.1 ≠ p.1 :=
        fun he => hnd'.1 (he ▸ List.mem_map_of_mem Prod.fst hp2)
      obtain ⟨a, b⟩ := q
      rw [dLookup_cons_ne _ _ _ _ hne]
      exact ih p hnd'.2 hp2

/-- With pairwise-distinct keys, two pairs sharing a key are equal. -/
theorem assoc_nodup_unique {α : Type} {m : List (String × α)}
    (hnd : (m.map Prod.fst).Nodup) {p q : String × α}
    (hp : p ∈ m) (hq : q ∈ m) (hk : p.1 = q.1) : p = q :=
  List.inj_on_of_nodup_map hnd hp hq hk

/-! ### Characterizations of the reconciliation maps and plan -/

/-- Under distinct normalized titles, `existing_map` is the literal
association list of `E`. -/
theorem existingMap_eq (issue_key : String) (E : List ExistingTest)
    (hE : (E.map (existingNorm issue_key)).Nodup) :
    existingMap issue_key E
      = E.map (fun e => (existingNorm issue_key e, fixTest issue_key e)) := by
  unfold existingMap
  rw [foldl_dUpsert_eq_map (existingNorm issue_key) (fixTest issue_key) E [] hE
    (fun t _ => rfl)]
  simp

/-- Under distinct sanitized titles, `new_map` is the literal association
list of `D`. -/
theorem newMap_eq (issue_key : String) (D : List NewScenario)
    (hD : (D.map (desiredTitle issue_key)).Nodup) :
    newMap issue_key D
      = D.map (fun sc => (desiredTitle issue_key sc, enrichScenario issue_key sc)) := by
  unfold newMap
  rw [foldl_dUpsert_eq_map (desiredTitle issue_key) (enrichScenario issue_key) D [] hD
    (fun t _ => rfl)]
  simp

/-- Key presence in `existing_map` means a record with that normalized
title. -/
theorem dHasKey_existingMap (issue_key : String) (E : List ExistingTest)
    (hE : (E.map (existingNorm issue_key)).Nodup) (k : String) :
    dHasKey (existingMap issue_key E) k = true
      ↔ ∃ e ∈ E, existingNorm issue_key e = k := by
  rw [dHasKey_iff, existingMap_eq issue_key E hE]
  constructor
  · intro ⟨p, hp, hpk⟩
    obtain ⟨e, he, rfl⟩ := List.mem_map.mp hp
    exact ⟨e, he, hpk⟩
  · intro ⟨e, he, hk⟩
    exact ⟨(existingNorm issue_key e, fixTest issue_key e),
      List.mem_map_of_mem _ he, hk⟩

/-- Key presence in `new_map` means a scenario with that sanitized title. -/
theorem dHasKey_newMap (issue_key : String) (D : List NewScenario)
    (hD : (D.map (desiredTitle issue_key)).Nodup) (k : String) :
    dHasKey (newMap issue_key D) k = true
      ↔ ∃ sc ∈ D, desiredTitle issue_key sc = k := by
  rw [dHasKey_iff, newMap_eq issue_key D hD]
  constructor
  · intro ⟨p, hp, hpk⟩
    obtain ⟨sc, hsc, rfl⟩ := List.mem_map.mp hp
    exact ⟨sc, hsc, hpk⟩
  · intro ⟨sc, hsc, hk⟩
    exact ⟨(desiredTitle issue_key sc, enrichScenario issue_key sc),
      List.mem_map_of_mem _ hsc, hk⟩

/-- Under distinct normalized titles, lookup of a record's normalized title
returns its fixed record. -/
theorem dLookup_existingMap (issue_key : String) (E : List ExistingTest)
    (hE : (E.map (existingNorm issue_key)).Nodup) (e : ExistingTest) (he : e ∈ E) :
    dLookup (existingMap issue_key E) (existingNorm issue_key e)
      = some (fixTest issue_key e) := by
  rw [existingMap_eq issue_key E hE]
  have hkeys : ((E.map (fun e => (existingNorm issue_key e, fixTest issue_key e))).map
      Prod.fst).Nodup := by
    rw [List.map_map]
    exact hE
  exact dLookup_mem_nodup _ (existingNorm issue_key e, fixTest issue_key e) hkeys
    (List.mem_map_of_mem _ he)

/-- A successful lookup in `existing_map` comes from a record of `E`. -/
theorem dLookup_existingMap_inv (issue_key : String) (E : List ExistingTest)
    (hE : (E.map (existingNorm issue_key)).Nodup) (k : String) (et : FixedTest)
    (h : dLookup (existingMap issue_key E) k = some et) :
    ∃ e ∈ E, existingNorm issue_key e = k ∧ fixTest issue_key e = et := by
  have hmem := dLookup_some_mem h
  rw [existingMap_eq issue_key E hE] at hmem
  obtain ⟨e, he, heq⟩ := List.mem_map.mp hmem
  obtain ⟨h1, h2⟩ := Prod.mk.injEq .. ▸ heq
  exact ⟨e, he, h1, h2⟩

/-- Under distinct sanitized titles, the `new_map` entry of a scenario is its
enriched record. -/
theorem newMap_entry_unique (issue_key : String) (D : List NewScenario)
    (hD : (D.map (desiredTitle issue_key)).Nodup) (sc : NewScenario) (hsc : sc ∈ D)
    (kv : String × NewData) (hkv : kv ∈ newMap issue_key D)
    (hk : kv.1 = desiredTitle issue_key sc) : kv.2 = enrichScenario issue_key sc := by
  have hkeys : ((newMap issue_key D).map Prod.fst).Nodup := by
    rw [newMap_eq issue_key D hD, List.map_map]
    exact hD
  have hmem2 : (desiredTitle issue_key sc, enrichScenario issue_key sc)
      ∈ newMap issue_key D := by
    rw [newMap_eq issue_key D hD]
    exact List.mem_map_of_mem _ hsc
  have := assoc_nodup_unique hkeys hkv hmem2 (by simpa using hk)
  rw [this]

/-- Every `new_map` entry comes from a scenario of `D`. -/
theorem newMap_entry_inv (issue_key : String) (D : List NewScenario)
    (hD : (D.map (desiredTitle issue_key)).Nodup)
    (kv : String × NewData) (hkv : kv ∈ newMap issue_key D) :
    ∃ sc ∈ D, kv = (desiredTitle issue_key sc, enrichScenario issue_key sc) := by
  rw [newMap_eq issue_key D hD] at hkv
  obtain ⟨sc, hsc, heq⟩ := List.mem_map.mp hkv
  exact ⟨sc, hsc, heq.symm⟩

/-- The inner option of the `to_update` filter-map is `some u` exactly for a
present title with a differing signature. -/
theorem upd_option_eq_some (issue_key : String) (em : List (String × FixedTest))
    (kv : String × NewData) (u : UpdateEntry) :
    (match dLookup em kv.1 with
      | some et => if kv.2.signature ≠ et.signature
          then some (mkUpdate issue_key et kv.2) else none
      | none => none) = some u
    ↔ ∃ et, dLookup em kv.1 = some et ∧ kv.2.signature ≠ et.signature
        ∧ u = mkUpdate issue_key et kv.2 := by
  cases hl : dLookup em kv.1 with
  | none => simp
  | some et =>
    constructor
    · intro h
      have h2 : (if kv.2.signature ≠ et.signature
          then some (mkUpdate issue_key et kv.2) else none) = some u := h
      by_cases hsig : kv.2.signature ≠ et.signature
      · rw [if_pos hsig] at h2
        exact ⟨et, rfl, hsig, (Option.some_inj.mp h2).symm⟩
      · rw [if_neg hsig] at h2
        cases h2
    · rintro ⟨et2, het2, hs2, hu⟩
      cases Option.some_inj.mp het2
      show (if kv.2.signature ≠ et.signature
          then some (mkUpdate issue_key et kv.2) else none) = some u
      rw [if_pos hs2, hu]

/-- The loop body on an absent title appends a create. -/
theorem syncStep_eq_create (issue_key : String) (em : List (String × FixedTest))
    (acc : List NewData × List UpdateEntry) (kv : String × NewData)
    (hk : dHasKey em kv.1 = false) :
    syncStep issue_key em acc kv = (acc.1 ++ [kv.2], acc.2) := by
  unfold syncStep
  rw [if_pos hk]

/-- The loop body on a present title with a changed signature appends an
update. -/
theorem syncStep_eq_update (issue_key : String) (em : List (String × FixedTest))
    (acc : List NewData × List UpdateEntry) (kv : String × NewData)
    (et : FixedTest) (hk : dHasKey em kv.1 = true)
    (hlook : dLookup em kv.1 = some et)
    (hsig : kv.2.signature ≠ et.signature) :
    syncStep issue_key em acc kv
      = (acc.1, acc.2 ++ [mkUpdate issue_key et kv.2]) := by
  unfold syncStep
  rw [if_neg (by simp [hk]), hlook]
  show (if kv.2.signature ≠ et.signature
      then (acc.1, acc.2 ++ [mkUpdate issue_key et kv.2]) else acc) = _
  rw [if_pos hsig]

/-- The loop body on a present title with a matching signature is a no-op. -/
theorem syncStep_eq_skip (issue_key : String) (em : List (String × FixedTest))
    (acc : List NewData × List UpdateEntry) (kv : String × NewData)
    (et : FixedTest) (hk : dHasKey em kv.1 = true)
    (hlook : dLookup em kv.1 = some et)
    (hsig : ¬ kv.2.signature ≠ et.signature) :
    syncStep issue_key em acc kv = acc := by
  unfold syncStep
  rw [if_neg (by simp [hk]), hlook]
  show (if kv.2.signature ≠ et.signature
      then (acc.1, acc.2 ++ [mkUpdate issue_key et kv.2]) else acc) = _
  rw [if_neg hsig]

/-- The `new_map` loop, unrolled: creates are the filtered map of absent
titles, updates the filter-map of present-but-changed titles. -/
theorem syncFold_eq (issue_key : String) (em : List (String × FixedTest)) :
    ∀ (nm : List (String × NewData)) (acc : List NewData × List UpdateEntry),
      nm.foldl (syncStep issue_key em) acc
        = (acc.1 ++ (nm.filter (fun kv => dHasKey em kv.1 = false)).map
              (fun kv => kv.2),
           acc.2 ++ nm.filterMap (fun kv =>
             match dLookup em kv.1 with
             | some et => if kv.2.signature ≠ et.signature
                 then some (mkUpdate issue_key et kv.2) else none
             | none => none)) := by
  intro nm
  induction nm with
  | nil => intro acc; simp
  | cons kv rest ih =>
    intro acc
    rw [List.foldl_cons]
    by_cases hk : dHasKey em kv.1 = false
    · have hlook : dLookup em kv.1 = none := by
        rw [dLookup_eq_none_iff]
        intro p hp he
        have : dHasKey em kv.1 = true := (dHasKey_iff em kv.1).mpr ⟨p, hp, he⟩
        rw [hk] at this
        cases this
      rw [syncStep_eq_create issue_key em acc kv hk, ih]
      simp [List.filter_cons, hk, List.filterMap_cons, hlook]
    · have hk' : dHasKey em kv.1 = true := by
        cases h : dHasKey em kv.1
        · exact absurd h hk
        · rfl
      obtain ⟨et, hlook⟩ : ∃ et, dLookup em kv.1 = some et := by
        cases hl : dLookup em kv.1 with
        | some et => exact ⟨et, rfl⟩
        | none =>
          obtain ⟨p, hp, hpk⟩ := (dHasKey_iff em kv.1).mp hk'
          exact absurd hpk (dLookup_eq_none_iff em kv.1 |>.mp hl p hp)
      by_cases hsig : kv.2.signature ≠ et.signature
      · rw [syncStep_eq_update issue_key em acc kv et hk' hlook hsig, ih]
        simp [List.filter_cons, hk', List.filterMap_cons, hlook, hsig]
      · rw [syncStep_eq_skip issue_key em acc kv et hk' hlook hsig, ih]
        simp [List.filter_cons, hk', List.filterMap_cons, hlook, hsig]

/-- Membership characterization of `to_update`. -/
theorem to_update_char (issue_key s : String) (E : List ExistingTest)
    (D : List NewScenario) (u : UpdateEntry) :
    u ∈ (llm_compare_and_sync issue_key s E D).to_update
      ↔ ∃ kv ∈ newMap issue_key D, ∃ et,
          dLookup (existingMap issue_key E) kv.1 = some et
          ∧ kv.2.signature ≠ et.signature ∧ u = mkUpdate issue_key et kv.2 := by
  show u ∈ (syncFold issue_key (existingMap issue_key E) (newMap issue_key D)).2 ↔ _
  unfold syncFold
  rw [syncFold_eq]
  simp only [List.nil_append, List.mem_filterMap]
  constructor
  · intro ⟨kv, hkv, hopt⟩
    exact ⟨kv, hkv, (upd_option_eq_some issue_key _ kv u).mp hopt⟩
  · intro ⟨kv, hkv, hex⟩
    exact ⟨kv, hkv, (upd_option_eq_some issue_key _ kv u).mpr hex⟩

/-- Membership characterization of `to_create`. -/
theorem to_create_char (issue_key s : String) (E : List ExistingTest)
    (D : List NewScenario) (nd : NewData) :
    nd ∈ (llm_compare_and_sync issue_key s E D).to_create
      ↔ ∃ kv ∈ newMap issue_key D,
          dHasKey (existingMap issue_key E) kv.1 = false ∧ nd = kv.2 := by
  show nd ∈ (syncFold issue_key (existingMap issue_key E) (newMap issue_key D)).1 ↔ _
  unfold syncFold
  rw [syncFold_eq]
  simp only [List.nil_append, List.mem_map, List.mem_filter]
  constructor
  · intro ⟨kv, ⟨hkv, hdec⟩, hnd⟩
    exact ⟨kv, hkv, by simpa using hdec, hnd.symm⟩
  · intro ⟨kv, hkv, hfalse, hnd⟩
    exact ⟨kv, ⟨hkv, by simpa using hfalse⟩, hnd.symm⟩

/-- Membership characterization of `obsolete`. -/
theorem obsolete_char (issue_key s : String) (E : List ExistingTest)
    (D : List NewScenario) (ft : FixedTest) :
    ft ∈ (llm_compare_and_sync issue_key s E D).obsolete
      ↔ ∃ kv ∈ existingMap issue_key E,
          dHasKey (newMap issue_key D) kv.1 = false ∧ ft = kv.2 := by
  show ft ∈ obsoleteOf (existingMap issue_key E) (newMap issue_key D) ↔ _
  unfold obsoleteOf
  simp only [List.mem_map, List.mem_filter]
  constructor
  · intro ⟨kv, ⟨hkv, hdec⟩, hft⟩
    exact ⟨kv, hkv, by simpa using hdec, hft.symm⟩
  · intro ⟨kv, hkv, hfalse, hft⟩
    exact ⟨kv, ⟨hkv, by simpa using hfalse⟩, hft.symm⟩

/-! ### Claims C2 and C3 -/

/-- The enriched record determines the scenario. -/
theorem enrichScenario_inj (issue_key : String) {sc1 sc2 : NewScenario}
    (h : enrichScenario issue_key sc1 = enrichScenario issue_key sc2) :
    sc1 = sc2 := by
  cases sc1
  cases sc2
  simp only [enrichScenario, NewData.mk.injEq] at h
  simp only [NewScenario.mk.injEq]
  exact ⟨h.1, h.2.1⟩

/-- Every `to_update` entry originates from a matched pair of an existing
record and a desired scenario with differing signatures. -/
theorem to_update_origin (issue_key s : String) (E : List ExistingTest)
    (D : List NewScenario)
    (hE : (E.map (existingNorm issue_key)).Nodup)
    (hD : (D.map (desiredTitle issue_key)).Nodup)
    (u : UpdateEntry) (hu : u ∈ (llm_compare_and_sync issue_key s E D).to_update) :
    ∃ e2 ∈ E, ∃ sc2 ∈ D,
      desiredTitle issue_key sc2 = existingNorm issue_key e2
      ∧ (enrichScenario issue_key sc2).signature ≠ existingSig issue_key e2
      ∧ u = mkUpdate issue_key (fixTest issue_key e2) (enrichScenario issue_key sc2) := by
  obtain ⟨kv, hkv, et, hlook, hsig, hueq⟩ := (to_update_char issue_key s E D u).mp hu
  obtain ⟨sc2, hsc2, rfl⟩ := newMap_entry_inv issue_key D hD kv hkv
  obtain ⟨e2, he2, hnorm2, hfix2⟩ :=
    dLookup_existingMap_inv issue_key E hE _ et hlook
  refine ⟨e2, he2, sc2, hsc2, hnorm2.symm, ?_, ?_⟩
  · rw [← hfix2] at hsig
    exact hsig
  · rw [hueq, ← hfix2]

/-- A matched pair with differing signatures contributes its update entry. -/
theorem to_update_exists (issue_key s : String) (E : List ExistingTest)
    (D : List NewScenario)
    (hE : (E.map (existingNorm issue_key)).Nodup)
    (hD : (D.map (desiredTitle issue_key)).Nodup)
    (e : ExistingTest) (he : e ∈ E) (sc : NewScenario) (hsc : sc ∈ D)
    (hmatch : desiredTitle issue_key sc = existingNorm issue_key e)
    (hsig : (enrichScenario issue_key sc).signature ≠ existingSig issue_key e) :
    mkUpdate issue_key (fixTest issue_key e) (enrichScenario issue_key sc)
      ∈ (llm_compare_and_sync issue_key s E D).to_update := by
  apply (to_update_char issue_key s E D _).mpr
  refine ⟨(desiredTitle issue_key sc, enrichScenario issue_key sc), ?_,
    fixTest issue_key e, ?_, hsig, rfl⟩
  · rw [newMap_eq issue_key D hD]
    exact List.mem_map_of_mem _ hsc
  · show dLookup (existingMap issue_key E) (desiredTitle issue_key sc) = _
    rw [hmatch]
    exact dLookup_existingMap issue_key E hE e he

/-- A fixed record is obsolete exactly when no desired scenario carries its
normalized title. -/
theorem obsolete_iff (issue_key s : String) (E : List ExistingTest)
    (D : List NewScenario)
    (hE : (E.map (existingNorm issue_key)).Nodup)
    (hD : (D.map (desiredTitle issue_key)).Nodup)
    (e : ExistingTest) (he : e ∈ E) :
    fixTest issue_key e ∈ (llm_compare_and_sync issue_key s E D).obsolete
      ↔ ¬ ∃ sc ∈ D, desiredTitle issue_key sc = existingNorm issue_key e := by
  rw [obsolete_char]
  constructor
  · rintro ⟨kv, hkv, hnk, hfe⟩ ⟨sc, hsc, hmatch⟩
    rw [existingMap_eq issue_key E hE] at hkv
    obtain ⟨e2, he2, hkveq⟩ := List.mem_map.mp hkv
    have hk1 : kv.1 = existingNorm issue_key e2 := by rw [← hkveq]
    have hk2 : fixTest issue_key e2 = fixTest issue_key e := by
      rw [show fixTest issue_key e2 = kv.2 from by rw [← hkveq], ← hfe]
    have hnorm : existingNorm issue_key e2 = existingNorm issue_key e :=
      congrArg FixedTest.norm_title hk2
    have htrue : dHasKey (newMap issue_key D) kv.1 = true := by
      rw [dHasKey_newMap issue_key D hD]
      exact ⟨sc, hsc, by rw [hmatch, ← hnorm, ← hk1]⟩
    rw [hnk] at htrue
    cases htrue
  · intro hno
    refine ⟨(existingNorm issue_key e, fixTest issue_key e), ?_, ?_, rfl⟩
    · rw [existingMap_eq issue_key E hE]
      exact List.mem_map_of_mem _ he
    · cases hdk : dHasKey (newMap issue_key D) (existingNorm issue_key e)
      · rfl
      · obtain ⟨sc, hsc, hmm⟩ := (dHasKey_newMap issue_key D hD _).mp hdk
        exact absurd ⟨sc, hsc, hmm⟩ hno

/-- Claim C2 counterexample: with two existing records sharing the
normalized title `"Validate T"` and an empty desired set, the earlier record
`cexE1` is silently shadowed: the plan has no creates and no updates,
`obsolete` holds only the later record, and `cexE1` is matched by no desired
scenario - so `cexE1` appears in none of
{matched-unchanged, to_update, obsolete}, refuting "every element of E
appears in exactly one". -/
theorem c2_counterexample :
    cexE1 ∈ [cexE1, cexE2]
    ∧ (llm_compare_and_sync "P" "S" [cexE1, cexE2] []).to_update = []
    ∧ (llm_compare_and_sync "P" "S" [cexE1, cexE2] []).to_create = []
    ∧ (llm_compare_and_sync "P" "S" [cexE1, cexE2] []).obsolete = [fixTest "P" cexE2]
    ∧ fixTest "P" cexE1 ∉ (llm_compare_and_sync "P" "S" [cexE1, cexE2] []).obsolete
    ∧ ¬ (∃ sc ∈ ([] : List NewScenario),
          desiredTitle "P" sc = existingNorm "P" cexE1
          ∧ (enrichScenario "P" sc).signature = existingSig "P" cexE1) := by
  refine ⟨by decide, by decide, by decide, by decide, by decide, by simp⟩

/-- Claim C2 (amended): when the existing records have pairwise-distinct
normalized titles and pairwise-distinct tracker keys and the desired
scenarios have pairwise-distinct sanitized titles, every existing record
falls in exactly one of {matched-unchanged, to_update, obsolete}, every
desired scenario falls in exactly one of
{matched-unchanged, to_create, to_update}, and the `to_update` and
`obsolete` lists are disjoint in existing-record keys.  (Without the
distinctness hypotheses the last-write-wins maps silently shadow earlier
records - see the counterexample.) -/
theorem c2_reconciliation_partition (issue_key s : String)
    (E : List ExistingTest) (D : List NewScenario)
    (hE : (E.map (existingNorm issue_key)).Nodup)
    (hD : (D.map (desiredTitle issue_key)).Nodup)
    (hK : (E.map ExistingTest.key).Nodup) :
    (∀ e ∈ E, ExactlyOne3
        (∃ sc ∈ D, desiredTitle issue_key sc = existingNorm issue_key e
          ∧ (enrichScenario issue_key sc).signature = existingSig issue_key e)
        (∃ u ∈ (llm_compare_and_sync issue_key s E D).to_update, u.key = e.key)
        (fixTest issue_key e ∈ (llm_compare_and_sync issue_key s E D).obsolete))
    ∧ (∀ sc ∈ D, ExactlyOne3
        (∃ e ∈ E, existingNorm issue_key e = desiredTitle issue_key sc
          ∧ existingSig issue_key e = (enrichScenario issue_key sc).signature)
        (enrichScenario issue_key sc ∈ (llm_compare_and_sync issue_key s E D).to_create)
        (∃ e ∈ E, existingNorm issue_key e = desiredTitle issue_key sc
          ∧ mkUpdate issue_key (fixTest issue_key e) (enrichScenario issue_key sc)
              ∈ (llm_compare_and_sync issue_key s E D).to_update))
    ∧ (∀ u ∈ (llm_compare_and_sync issue_key s E D).to_update,
        ∀ o ∈ (llm_compare_and_sync issue_key s E D).obsolete, u.key ≠ o.key) := by
  have hKeyInj : ∀ e1 ∈ E, ∀ e2 ∈ E, e1.key = e2.key → e1 = e2 :=
    fun e1 h1 e2 h2 he => List.inj_on_of_nodup_map hK h1 h2 he
  have hNormInj : ∀ e1 ∈ E, ∀ e2 ∈ E,
      existingNorm issue_key e1 = existingNorm issue_key e2 → e1 = e2 :=
    fun e1 h1 e2 h2 he => List.inj_on_of_nodup_map hE h1 h2 he
  have hDInj : ∀ sc1 ∈ D, ∀ sc2 ∈ D,
      desiredTitle issue_key sc1 = desiredTitle issue_key sc2 → sc1 = sc2 :=
    fun sc1 h1 sc2 h2 he => List.inj_on_of_nodup_map hD h1 h2 he
  refine ⟨?_, ?_, ?_⟩
  · -- every existing record in exactly one category
    intro e he
    by_cases hex : ∃ sc ∈ D, desiredTitle issue_key sc = existingNorm issue_key e
    · obtain ⟨sc0, hsc0, hmatch0⟩ := hex
      by_cases hsig0 : (enrichScenario issue_key sc0).signature
          = existingSig issue_key e
      · refine ⟨Or.inl ⟨sc0, hsc0, hmatch0, hsig0⟩, ?_, ?_, ?_⟩
        · rintro ⟨-, ⟨u, hu, hukey⟩⟩
          obtain ⟨e2, he2, sc2, hsc2, hm2, hs2, hueq⟩ :=
            to_update_origin issue_key s E D hE hD u hu
          have hkey2 : e2.key = e.key := by
            rw [hueq] at hukey
            exact hukey
          have he2e : e2 = e := hKeyInj e2 he2 e he hkey2
          rw [he2e] at hm2
          have hsc20 : sc2 = sc0 := hDInj sc2 hsc2 sc0 hsc0 (by rw [hm2, hmatch0])
          rw [hsc20, he2e] at hs2
          exact hs2 hsig0
        · rintro ⟨-, hobs⟩
          exact (obsolete_iff issue_key s E D hE hD e he).mp hobs
            ⟨sc0, hsc0, hmatch0⟩
        · rintro ⟨-, hobs⟩
          exact (obsolete_iff issue_key s E D hE hD e he).mp hobs
            ⟨sc0, hsc0, hmatch0⟩
      · have hsig0' : (enrichScenario issue_key sc0).signature
            ≠ existingSig issue_key e := hsig0
        refine ⟨Or.inr (Or.inl
          ⟨mkUpdate issue_key (fixTest issue_key e) (enrichScenario issue_key sc0),
           to_update_exists issue_key s E D hE hD e he sc0 hsc0 hmatch0 hsig0',
           rfl⟩), ?_, ?_, ?_⟩
        · rintro ⟨⟨sc1, hsc1, hm1, hs1⟩, -⟩
          have hsc10 : sc1 = sc0 := hDInj sc1 hsc1 sc0 hsc0 (by rw [hm1, hmatch0])
          rw [hsc10] at hs1
          exact hsig0 hs1
        · rintro ⟨⟨sc1, hsc1, hm1, -⟩, hobs⟩
          exact (obsolete_iff issue_key s E D hE hD e he).mp hobs ⟨sc1, hsc1, hm1⟩
        · rintro ⟨-, hobs⟩
          exact (obsolete_iff issue_key s E D hE hD e he).mp hobs
            ⟨sc0, hsc0, hmatch0⟩
    · refine ⟨Or.inr (Or.inr
        ((obsolete_iff issue_key s E D hE hD e he).mpr hex)), ?_, ?_, ?_⟩
      · rintro ⟨⟨sc1, hsc1, hm1, -⟩, -⟩
        exact hex ⟨sc1, hsc1, hm1⟩
      · rintro ⟨⟨sc1, hsc1, hm1, -⟩, -⟩
        exact hex ⟨sc1, hsc1, hm1⟩
      · rintro ⟨⟨u, hu, hukey⟩, -⟩
        obtain ⟨e2, he2, sc2, hsc2, hm2, -, hueq⟩ :=
          to_update_origin issue_key s E D hE hD u hu
        have hkey2 : e2.key = e.key := by
          rw [hueq] at hukey
          exact hukey
        have he2e : e2 = e := hKeyInj e2 he2 e he hkey2
        rw [he2e] at hm2
        exact hex ⟨sc2, hsc2, hm2⟩
  · -- every desired scenario in exactly one category
    intro sc hsc
    by_cases hex : ∃ e ∈ E, existingNorm issue_key e = desiredTitle issue_key sc
    · obtain ⟨e0, he0, hm0⟩ := hex
      by_cases hsig0 : existingSig issue_key e0
          = (enrichScenario issue_key sc).signature
      · refine ⟨Or.inl ⟨e0, he0, hm0, hsig0⟩, ?_, ?_, ?_⟩
        · rintro ⟨-, hcr⟩
          obtain ⟨kv, hkv, hnk, hnd⟩ := (to_create_char issue_key s E D _).mp hcr
          obtain ⟨sc1, hsc1, rfl⟩ := newMap_entry_inv issue_key D hD kv hkv
          have hsc1sc : sc1 = sc := enrichScenario_inj issue_key (by rw [hnd])
          rw [hsc1sc] at hnk
          have htrue : dHasKey (existingMap issue_key E)
              (desiredTitle issue_key sc) = true := by
            rw [dHasKey_existingMap issue_key E hE]
            exact ⟨e0, he0, hm0⟩
          rw [hnk] at htrue
          cases htrue
        · rintro ⟨-, ⟨e2, he2, hm2, hupd⟩⟩
          obtain ⟨e3, he3, sc3, hsc3, hm3, hs3, hueq⟩ :=
            to_update_origin issue_key s E D hE hD _ hupd
          have hkey32 : e2.key = e3.key := congrArg UpdateEntry.key hueq
          have he32 : e2 = e3 := hKeyInj e2 he2 e3 he3 hkey32
          have hsc3sc : sc3 = sc := hDInj sc3 hsc3 sc hsc
            (by rw [hm3, ← he32, hm2])
          have he20 : e2 = e0 := hNormInj e2 he2 e0 he0 (by rw [hm2, hm0])
          rw [hsc3sc, ← he32, he20] at hs3
          exact hs3 hsig0.symm
        · rintro ⟨hcr, -⟩
          obtain ⟨kv, hkv, hnk, hnd⟩ := (to_create_char issue_key s E D _).mp hcr
          obtain ⟨sc1, hsc1, rfl⟩ := newMap_entry_inv issue_key D hD kv hkv
          have hsc1sc : sc1 = sc := enrichScenario_inj issue_key (by rw [hnd])
          rw [hsc1sc] at hnk
          have htrue : dHasKey (existingMap issue_key E)
              (desiredTitle issue_key sc) = true := by
            rw [dHasKey_existingMap issue_key E hE]
            exact ⟨e0, he0, hm0⟩
          rw [hnk] at htrue
          cases htrue
      · have hsig0' : (enrichScenario issue_key sc).signature
            ≠ existingSig issue_key e0 := fun h => hsig0 h.symm
        refine ⟨Or.inr (Or.inr ⟨e0, he0, hm0,
          to_update_exists issue_key s E D hE hD e0 he0 sc hsc hm0.symm hsig0'⟩),
          ?_, ?_, ?_⟩
        · rintro ⟨⟨e1, he1, hm1, hs1⟩, -⟩
          have he10 : e1 = e0 := hNormInj e1 he1 e0 he0 (by rw [hm1, hm0])
          rw [he10] at hs1
          exact hsig0 hs1
        · rintro ⟨⟨e1, he1, hm1, hs1⟩, -⟩
          have he10 : e1 = e0 := hNormInj e1 he1 e0 he0 (by rw [hm1, hm0])
          rw [he10] at hs1
          exact hsig0 hs1
        · rintro ⟨hcr, -⟩
          obtain ⟨kv, hkv, hnk, hnd⟩ := (to_create_char issue_key s E D _).mp hcr
          obtain ⟨sc1, hsc1, rfl⟩ := newMap_entry_inv issue_key D hD kv hkv
          have hsc1sc : sc1 = sc := enrichScenario_inj issue_key (by rw [hnd])
          rw [hsc1sc] at hnk
          have htrue : dHasKey (existingMap issue_key E)
              (desiredTitle issue_key sc) = true := by
            rw [dHasKey_existingMap issue_key E hE]
            exact ⟨e0, he0, hm0⟩
          rw [hnk] at htrue
          cases htrue
    · refine ⟨Or.inr (Or.inl ?_), ?_, ?_, ?_⟩
      · apply (to_create_char issue_key s E D _).mpr
        refine ⟨(desiredTitle issue_key sc, enrichScenario issue_key sc), ?_, ?_, rfl⟩
        · rw [newMap_eq issue_key D hD]
          exact List.mem_map_of_mem _ hsc
        · cases hdk : dHasKey (existingMap issue_key E) (desiredTitle issue_key sc)
          · rfl
          · obtain ⟨e1, he1, hm1⟩ := (dHasKey_existingMap issue_key E hE _).mp hdk
            exact absurd ⟨e1, he1, hm1⟩ hex
      · rintro ⟨⟨e1, he1, hm1, -⟩, -⟩
        exact hex ⟨e1, he1, hm1⟩
      · rintro ⟨⟨e1, he1, hm1, -⟩, -⟩
        exact hex ⟨e1, he1, hm1⟩
      · rintro ⟨-, ⟨e2, he2, hm2, -⟩⟩
        exact hex ⟨e2, he2, hm2⟩
  · -- to_update and obsolete disjoint in keys
    intro u hu o ho hkeys
    obtain ⟨e2, he2, sc2, hsc2, hm2, -, hueq⟩ :=
      to_update_origin issue_key s E D hE hD u hu
    obtain ⟨kv, hkv, hnk, hoeq⟩ := (obsolete_char issue_key s E D o).mp ho
    rw [existingMap_eq issue_key E hE] at hkv
    obtain ⟨e3, he3, hkveq⟩ := List.mem_map.mp hkv
    have hokey : o.key = e3.key := by
      rw [hoeq, show kv.2 = fixTest issue_key e3 from by rw [← hkveq]]
      rfl
    have hukey : u.key = e2.key := by
      rw [hueq]
      rfl
    have he23 : e2 = e3 := hKeyInj e2 he2 e3 he3 (by rw [← hukey, hkeys, hokey])
    have hkv1 : kv.1 = existingNorm issue_key e2 := by
      rw [show kv.1 = existingNorm issue_key e3 from by rw [← hkveq], he23]
    have htrue : dHasKey (newMap issue_key D) kv.1 = true := by
      rw [dHasKey_newMap issue_key D hD, hkv1]
      exact ⟨sc2, hsc2, hm2⟩
    rw [hnk] at htrue
    cases htrue

/-- Witness for the amended C2: the singleton pair `witE`/`witD` discharges
the distinctness hypotheses. -/
theorem c2_reconciliation_partition_witness :
    ExactlyOne3
      (∃ sc ∈ [witD], desiredTitle "TEST-1" sc = existingNorm "TEST-1" witE
        ∧ (enrichScenario "TEST-1" sc).signature = existingSig "TEST-1" witE)
      (∃ u ∈ (llm_compare_and_sync "TEST-1" "S" [witE] [witD]).to_update,
        u.key = witE.key)
      (fixTest "TEST-1" witE ∈ (llm_compare_and_sync "TEST-1" "S" [witE] [witD]).obsolete) :=
  (c2_reconciliation_partition "TEST-1" "S" [witE] [witD]
    (by decide) (by decide) (by decide)).1 witE (by decide)

/-- Claim C3 counterexample: the matched existing record's summary is
`"PROJ-123 | TC01 | Validate Login"` and the new scenario's raw title is
`"Validate Validate Login Extended"`, which sanitizes to
`"Validate Login Extended"`; the appended update entry's summary ends in the
RAW title, not the sanitized canonical one the claim prescribes. -/
theorem c3_counterexample :
    (llm_compare_and_sync "PROJ-123" "S" [cexE3] [cexD3]).to_update
      = [{ key := "T-1",
           summary := "PROJ-123 | TC01 | Validate Validate Login Extended",
           steps := "Given new" }]
    ∧ sanitize_title "PROJ-123" (some cexD3.title) = "Validate Login Extended"
    ∧ cexD3.title ≠ "Validate Login Extended" := by
  refine ⟨by decide, by decide, by decide⟩

/-- Claim C3 (amended): for a desired scenario whose sanitized title matches
an existing record's normalized title while the signatures differ, the
planner appends an update entry carrying the existing record's key and the
new step content, and a summary whose first two `|`-segments (stripped) are
preserved from the existing summary when it has more than one segment (the
issue key is substituted otherwise) and whose final segment is the new
scenario's RAW title (not the re-sanitized canonical title). -/
theorem c3_update_summary (issue_key s : String) (E : List ExistingTest)
    (D : List NewScenario) (e : ExistingTest) (sc : NewScenario)
    (hE : (E.map (existingNorm issue_key)).Nodup)
    (hD : (D.map (desiredTitle issue_key)).Nodup)
    (he : e ∈ E) (hsc : sc ∈ D)
    (hmatch : desiredTitle issue_key sc = existingNorm issue_key e)
    (hsig : (enrichScenario issue_key sc).signature ≠ existingSig issue_key e) :
    mkUpdate issue_key (fixTest issue_key e) (enrichScenario issue_key sc)
        ∈ (llm_compare_and_sync issue_key s E D).to_update
    ∧ (mkUpdate issue_key (fixTest issue_key e)
        (enrichScenario issue_key sc)).key = e.key
    ∧ (mkUpdate issue_key (fixTest issue_key e)
        (enrichScenario issue_key sc)).steps = sc.steps
    ∧ (∀ p0 p1 rest, pySplitPipe e.summary = p0 :: p1 :: rest →
        (mkUpdate issue_key (fixTest issue_key e)
          (enrichScenario issue_key sc)).summary
          = pyStrip p0 ++ " | " ++ pyStrip p1 ++ " | " ++ sc.title)
    ∧ (∀ p0, pySplitPipe e.summary = [p0] →
        (mkUpdate issue_key (fixTest issue_key e)
          (enrichScenario issue_key sc)).summary
          = issue_key ++ " | " ++ sc.title) := by
  refine ⟨to_update_exists issue_key s E D hE hD e he sc hsc hmatch hsig,
    rfl, rfl, ?_, ?_⟩
  · intro p0 p1 rest hsplit
    show updSummary issue_key e.summary sc.title = _
    unfold updSummary
    rw [hsplit]
  · intro p0 hsplit
    show updSummary issue_key e.summary sc.title = _
    unfold updSummary
    rw [hsplit]

/-- Witness for the amended C3 at the concrete `cexE3`/`cexD3` pair. -/
theorem c3_update_summary_witness :
    mkUpdate "PROJ-123" (fixTest "PROJ-123" cexE3) (enrichScenario "PROJ-123" cexD3)
      ∈ (llm_compare_and_sync "PROJ-123" "S" [cexE3] [cexD3]).to_update :=
  (c3_update_summary "PROJ-123" "S" [cexE3] [cexD3] cexE3 cexD3
    (by decide) (by decide) (by decide) (by decide) (by decide) (by decide)).1
